/-
Verification of the KidDoc server core (server/index.js, 3-provider variant):
triage classification, system-prompt construction, provider adapters,
fallback orchestration, request validation and the diagnose handler.

JavaScript-specific conventions used throughout the shallow embedding:
* JS strings are Lean `String`s (lists of characters); `String(x).trim()`
  is modelled with the ECMAScript whitespace set (`jsTrim`).
* `Boolean(s)` for a string `s` is `s ≠ ""`.
* JS numbers are modelled as `Option ℚ`: `some q` is a finite number with
  exact value `q`, `none` collapses NaN and ±Infinity (the code under
  verification only ever asks `Number.isInteger` and range questions, on
  which NaN and ±Infinity behave identically: both fail).
* Object-literal lookups (`TABLE[key]`) are own-property lookups.
-/
import Mathlib

/-! ### ECMAScript string helpers -/

/-- The ECMAScript WhiteSpace ∪ LineTerminator set used by `String.prototype.trim`
and by the `\s` regex class. -/
def jsIsWhitespace (c : Char) : Bool :=
  c = '\t' ∨ c = '\n' ∨ c = '\x0b' ∨ c = '\x0c' ∨ c = '\r' ∨ c = ' ' ∨
  c = '\u00a0' ∨ c = '\u1680' ∨
  ('\u2000' ≤ c ∧ c ≤ '\u200a') ∨
  c = '\u2028' ∨ c = '\u2029' ∨ c = '\u202f' ∨ c = '\u205f' ∨ c = '\u3000' ∨
  c = '\ufeff'

/-- `String.prototype.trim` on the underlying character list. -/
def jsTrimList (cs : List Char) : List Char :=
  ((cs.dropWhile jsIsWhitespace).reverse.dropWhile jsIsWhitespace).reverse

/-- `String.prototype.trim`. -/
def jsTrim (s : String) : String :=
  ⟨jsTrimList s.data⟩

/-- ASCII lower-casing of one character, the case folding performed by a
non-unicode, ASCII-pattern `/i` regex. -/
def lowerAscii (c : Char) : Char :=
  if 'A' ≤ c ∧ c ≤ 'Z' then Char.ofNat (c.toNat + 32) else c

/-- ASCII lower-casing of a string (JS `toLowerCase` restricted to ASCII input). -/
def lowerAsciiString (s : String) : String :=
  ⟨s.data.map lowerAscii⟩

/-- The regex word-character class `\w` = `[A-Za-z0-9_]` (non-unicode mode). -/
def isWordChar (c : Char) : Bool :=
  ('A' ≤ c ∧ c ≤ 'Z') ∨ ('a' ≤ c ∧ c ≤ 'z') ∨ ('0' ≤ c ∧ c ≤ '9') ∨ c = '_'

/-! ### The triage regular expressions

Every triage pattern in the source has the shape `/\\b(alt|alt|…)\\b/i`
where each alternative is a sequence of literal ASCII text and, in one
case, a `[0-9]+` digit run.  A pattern is embedded as a list of
alternatives, each alternative a list of tokens, matched over the
string's code points (the patterns are ASCII, for which code points and
the UTF-16 units the JS regex engine walks agree).  The `[0-9]+` run is
consumed greedily, which is equivalent to the regex here because the
token following a digit run never starts with a digit. -/

/-- The code points of a string. -/
def strCodes (s : String) : List Nat :=
  s.data.map Char.toNat

/-- ASCII case folding on a code point, the canonicalization a
non-unicode, ASCII-pattern `/i` regex performs. -/
def lowerAsciiN (n : Nat) : Nat :=
  if 65 ≤ n ∧ n ≤ 90 then n + 32 else n

/-- The regex word-character class `\\w` = `[A-Za-z0-9_]` on a code point. -/
def isWordCharN (n : Nat) : Bool :=
  (65 ≤ n ∧ n ≤ 90) ∨ (97 ≤ n ∧ n ≤ 122) ∨ (48 ≤ n ∧ n ≤ 57) ∨ n = 95

/-- The `[0-9]` class on a code point. -/
def isDigitN (n : Nat) : Bool :=
  48 ≤ n ∧ n ≤ 57

inductive RexTok where
  | lit (cs : List Nat)
  | digits
deriving Repr, DecidableEq

/-- Consume a literal (stored lower-cased) from the head of the input,
case-insensitively; return the rest on success. -/
def matchLit : List Nat → List Nat → Option (List Nat)
  | [], s => some s
  | _ :: _, [] => none
  | c :: cs, x :: s => if lowerAsciiN x = c then matchLit cs s else none

/-- Consume `[0-9]+` greedily; return the rest on success. -/
def eatDigits (s : List Nat) : Option (List Nat) :=
  match s.takeWhile isDigitN with
  | [] => none
  | _ :: _ => some (s.dropWhile isDigitN)

/-- Consume one alternative (a token sequence) from the head of the input. -/
def matchToks : List RexTok → List Nat → Option (List Nat)
  | [], s => some s
  | .lit cs :: ts, s => (matchLit cs s).bind (matchToks ts)
  | .digits :: ts, s => (eatDigits s).bind (matchToks ts)

/-- Does the alternative match exactly at the head of `s`, with a word
boundary before (`prevIsWord` describes the character left of `s`) and
after the match? -/
def altMatchesHere (alt : List RexTok) (prevIsWord : Bool) (s : List Nat) : Bool :=
  !prevIsWord &&
    match matchToks alt s with
    | some [] => true
    | some (c :: _) => !isWordCharN c
    | none => false

/-- Scan `s` for a match of the alternative at any position (`regex.test`). -/
def altScan (alt : List RexTok) : Bool → List Nat → Bool
  | prev, [] => altMatchesHere alt prev []
  | prev, c :: rest => altMatchesHere alt prev (c :: rest) || altScan alt (isWordCharN c) rest

/-- `/\\b(alt₁|…|altₙ)\\b/i.test(s)`. -/
def rexTest (alts : List (List RexTok)) (s : String) : Bool :=
  alts.any (fun alt => altScan alt false (strCodes s))

/-- A literal-word alternative. -/
def w (s : String) : List RexTok := [.lit (strCodes s)]

/-- One `(regex, reason)` entry of a triage pattern table. -/
structure TriagePattern where
  alts : List (List RexTok)
  reason : String
deriving Repr, DecidableEq

def URGENT_TRIAGE_PATTERNS : List TriagePattern :=
  [ ⟨[w "can\x27t breathe", w "cant breathe", w "cannot breathe", w "trouble breathing",
      w "struggling to breathe"], "Breathing difficulty"⟩,
    ⟨[w "chest pain", w "severe chest pain"], "Chest pain"⟩,
    ⟨[w "unconscious", w "passed out", w "not waking up"], "Loss of consciousness"⟩,
    ⟨[w "seizure", w "convulsion"], "Possible seizure"⟩,
    ⟨[w "blue lips", w "blue face"], "Possible low oxygen signs"⟩,
    ⟨[w "thoughts of self harm", w "suicidal", w "want to die"], "Mental health emergency signs"⟩ ]

def WATCH_TRIAGE_PATTERNS : List TriagePattern :=
  [ ⟨[w "high fever", w "fever over", [.lit (strCodes "fever for "), .digits, .lit (strCodes " days")]],
      "Persistent or high fever"⟩,
    ⟨[w "vomiting", w "diarrhea", w "rash", w "ear pain", w "sore throat"],
      "Symptoms may need a doctor check"⟩,
    ⟨[w "headache", w "dizzy", w "fatigue", w "stomach pain", w "tummy hurts"],
      "Common symptoms to monitor"⟩ ]

/-! ### Triage copy tables and `detectTriage` -/

structure TriageCopy where
  emergencyTitle : String
  emergencyMessage : String
  cautionTitle : String
  cautionMessage : String
  routineTitle : String
  routineMessage : String
deriving Repr, DecidableEq

def TRIAGE_COPY_en : TriageCopy :=
  ⟨"Emergency warning",
   "Some symptoms look urgent. Please seek emergency care now.",
   "Doctor follow-up recommended",
   "These symptoms should be checked by a doctor soon.",
   "Monitor and follow guidance",
   "No urgent red flags detected, but keep monitoring symptoms."⟩

def TRIAGE_COPY_es : TriageCopy :=
  ⟨"Advertencia de emergencia",
   "Algunos sintomas parecen urgentes. Busquen atencion de emergencia ahora.",
   "Se recomienda consulta medica",
   "Estos sintomas deben revisarse pronto con un medico.",
   "Monitorear y seguir indicaciones",
   "No se detectaron alertas urgentes, pero sigan observando los sintomas."⟩

def TRIAGE_COPY_fr : TriageCopy :=
  ⟨"Alerte urgence",
   "Certains symptomes semblent urgents. Veuillez consulter les urgences maintenant.",
   "Suivi medical recommande",
   "Ces symptomes devraient etre verifies par un medecin rapidement.",
   "Surveiller et suivre les conseils",
   "Aucun signal urgent detecte, mais continuez a surveiller les symptomes."⟩

/-- Own-property lookup on the `TRIAGE_COPY` object literal.  For a
language naming a property inherited from `Object.prototype` the source's
bracket lookup would find the truthy inherited member instead, whose
`emergencyTitle`-style fields are all `undefined`; that divergence is
confined to the `title`/`message` copy fields and never touches the
`level`/`reasons` classification. -/
def TRIAGE_COPY_get (language : String) : Option TriageCopy :=
  if language = "en" then some TRIAGE_COPY_en
  else if language = "es" then some TRIAGE_COPY_es
  else if language = "fr" then some TRIAGE_COPY_fr
  else none

structure TriageResult where
  level : String
  title : String
  message : String
  reasons : List String
deriving Repr, DecidableEq

/-- `detectTriage(symptoms, language)` from the source. -/
def detectTriage (symptoms language : String) : TriageResult :=
  let copy := (TRIAGE_COPY_get language).getD TRIAGE_COPY_en
  let urgentReasons :=
    (URGENT_TRIAGE_PATTERNS.filter (fun p => rexTest p.alts symptoms)).map (·.reason)
  if urgentReasons.length > 0 then
    ⟨"emergency", copy.emergencyTitle, copy.emergencyMessage, urgentReasons⟩
  else
    let cautionReasons :=
      (WATCH_TRIAGE_PATTERNS.filter (fun p => rexTest p.alts symptoms)).map (·.reason)
    if cautionReasons.length > 0 then
      ⟨"caution", copy.cautionTitle, copy.cautionMessage, cautionReasons⟩
    else
      ⟨"routine", copy.routineTitle, copy.routineMessage, []⟩

example : (detectTriage "My child can't breathe and has chest pain" "es").level = "emergency" := by
  decide

example : (detectTriage "My child CAN'T BREATHE and has chest pain" "en").reasons =
    ["Breathing difficulty", "Chest pain"] := by decide

example : (detectTriage "mild headache" "en").level = "caution" := by decide

example : (detectTriage "a fever for 3 days now" "en").level = "caution" := by decide

example : (detectTriage "feeling fine" "fr").level = "routine" := by decide

example : (detectTriage "breathe" "en").level = "routine" := by decide

/-! ### Prompt construction -/

/-- The own-property layer of the bracket lookup `LANGUAGE_NAMES[language]`:
`some` when the object literal itself has the key. -/
def LANGUAGE_NAMES_get (language : String) : Option String :=
  if language = "en" then some "English"
  else if language = "es" then some "Spanish"
  else if language = "fr" then some "French"
  else none

/-- The own-property layer of the bracket lookup
`READING_LEVEL_PROMPTS[readingLevel]`. -/
def READING_LEVEL_PROMPTS_get (readingLevel : String) : Option String :=
  if readingLevel = "very_simple" then
    some "Use very short sentences and very simple words for younger children."
  else if readingLevel = "simple" then
    some "Use simple child-friendly language with clear examples."
  else if readingLevel = "detailed" then
    some "Use child-friendly language with slightly more detail for older children."
  else none

/-- The string-keyed properties a plain object literal inherits from
`Object.prototype`: bracket lookup with one of these keys finds the
inherited member on the prototype chain.  Every such member is truthy (a
function, and for `__proto__` the `Object.prototype` object itself), so
the `|| fallback` after the lookup does not fire for these keys. -/
def OBJECT_PROTOTYPE_KEYS : List String :=
  ["constructor", "hasOwnProperty", "isPrototypeOf", "propertyIsEnumerable",
   "toLocaleString", "toString", "valueOf", "__defineGetter__", "__defineSetter__",
   "__lookupGetter__", "__lookupSetter__", "__proto__"]

/-- How a template literal renders the inherited `Object.prototype` member
named `key`: the built-in function's source text as V8 — the Node runtime
this server targets — produces it, and `"[object Object]"` for the
`__proto__` accessor's value. -/
def objectPrototypeMemberString (key : String) : String :=
  if key = "__proto__" then "[object Object]"
  else if key = "constructor" then "function Object() { [native code] }"
  else "function " ++ key ++ "() { [native code] }"

/-- `LANGUAGE_NAMES[language] || LANGUAGE_NAMES.en`: an own property (a
non-empty string, hence truthy) wins; otherwise the lookup walks the
prototype chain, and an inherited `Object.prototype` member (truthy, so
the `||` does not fire) is what the template interpolates; only a key
found nowhere yields `undefined` and falls back to English. -/
def languageNameOf (language : String) : String :=
  match LANGUAGE_NAMES_get language with
  | some name => name
  | none =>
    if language ∈ OBJECT_PROTOTYPE_KEYS then objectPrototypeMemberString language
    else "English"

/-- `READING_LEVEL_PROMPTS[readingLevel] || READING_LEVEL_PROMPTS.simple`,
with the same own-property / prototype-chain / fallback layering. -/
def readingInstructionOf (readingLevel : String) : String :=
  match READING_LEVEL_PROMPTS_get readingLevel with
  | some instruction => instruction
  | none =>
    if readingLevel ∈ OBJECT_PROTOTYPE_KEYS then objectPrototypeMemberString readingLevel
    else "Use simple child-friendly language with clear examples."

/-- Every value `languageNameOf` can produce. -/
def LANGUAGE_NAME_RESULTS : List String :=
  ["English", "Spanish", "French"] ++ OBJECT_PROTOTYPE_KEYS.map objectPrototypeMemberString

/-- Every value `readingInstructionOf` can produce. -/
def READING_INSTRUCTION_RESULTS : List String :=
  ["Use very short sentences and very simple words for younger children.",
   "Use simple child-friendly language with clear examples.",
   "Use child-friendly language with slightly more detail for older children."] ++
  OBJECT_PROTOTYPE_KEYS.map objectPrototypeMemberString

def EMERGENCY_INSTRUCTION : String :=
  "- Start with a direct warning to seek emergency care immediately."

def SOFT_INSTRUCTION : String :=
  "- If symptoms may need urgent care, clearly say so."

def emergencyInstructionOf (triageLevel : String) : String :=
  if triageLevel = "emergency" then EMERGENCY_INSTRUCTION else SOFT_INSTRUCTION

/-- The fixed template pieces surrounding the interpolations of
`buildSystemPrompt` (backtick template literal, lines 211-226). -/
def PROMPT_PRE : String :=
  "You are Dr. Buddy, a friendly doctor AI for children ages 4-14.\nKeep your response warm, calm, and simple for "

def PROMPT_WHO : String := " who is "

def PROMPT_RULES_1 : String := ".\nRules:\n- Respond in "

def PROMPT_RULES_2 : String := ".\n- "

def PROMPT_RULES_3 : String :=
  "\n- Use short clear sentences with supportive tone.\n- Avoid scary language and avoid medical jargon.\n- Do not provide diagnosis certainty.\n- Always remind the user this is educational and they should see a real doctor for concerning symptoms.\n- "

def PROMPT_TAIL : String :=
  "\n- Keep response under 250 words.\n- Return these sections:\n1. What might be happening\n2. What can help at home\n3. Should you see a doctor?\n4. Encouragement"

/-- `buildSystemPrompt({childName, childAge, language, readingLevel, triageLevel})`. -/
def buildSystemPrompt (childName childAge language readingLevel triageLevel : String) : String :=
  PROMPT_PRE ++ childName ++ PROMPT_WHO ++ childAge ++ PROMPT_RULES_1 ++
    languageNameOf language ++ PROMPT_RULES_2 ++ readingInstructionOf readingLevel ++
    PROMPT_RULES_3 ++ emergencyInstructionOf triageLevel ++ PROMPT_TAIL

/-! ### File uploads and the user message -/

structure FileUpload where
  base64 : String
  mimeType : String
  fileName : String
  isImage : Bool
deriving Repr, DecidableEq

/-- Truthiness of `file?.base64 && file.isImage` and its negated companion. -/
def fileIsImageAttachment : Option FileUpload → Bool
  | none => false
  | some f => f.base64 ≠ "" ∧ f.isImage

def fileIsNonImageAttachment : Option FileUpload → Bool
  | none => false
  | some f => f.base64 ≠ "" ∧ ¬f.isImage

/-- `buildUserText({symptoms, childName, childAge, language, readingLevel, file})`. -/
def buildUserText (symptoms childName childAge language readingLevel : String)
    (file : Option FileUpload) : String :=
  let text := "Hi Dr. Buddy. I am " ++ childName ++ ", " ++ childAge ++ ". My symptoms: " ++
    symptoms ++ ". Preferred language: " ++ language ++ ". Reading level: " ++ readingLevel ++ "."
  if fileIsImageAttachment file then
    text ++ " I uploaded a lab image. Please read and explain it simply for a child."
  else if fileIsNonImageAttachment file then
    text ++ " I uploaded a non-image file. Please provide advice from symptoms only."
  else
    text

/-! ### A JSON value model and the provider adapters

An adapter is modelled from the point its `fetch` call has returned: its
input is the upstream response, a transport flag `ok` plus `some` parsed
JSON body, or `none` when the body failed to parse as JSON.  Request
assembly (URL, headers, image blocks) has no bearing on any claim and is
not modelled.  Simplifications, each marked below: non-string values in
`error.message` / text-fragment positions are treated as absent (the
source would stringify such values), and a `TypeError` thrown by calling
`.map` on a parsed non-array is collapsed to empty text. -/

inductive Js where
  | str (s : String)
  | num (q : Option ℚ)
  | bool (b : Bool)
  | null
  | arr (xs : List Js)
  | obj (fields : List (String × Js))
deriving Repr

/-- Property access `value?.key`: `none` is JS `undefined`. -/
def jsGet : Js → String → Option Js
  | .obj fields, key => fields.lookup key
  | _, _ => none

/-- Index access `value?.[0]` (on an object it reads property `"0"`; on a
string it yields the first character). -/
def jsIndex0 : Js → Option Js
  | .arr xs => xs.head?
  | .obj fields => fields.lookup "0"
  | .str s => s.data.head?.map (fun c => .str ⟨[c]⟩)
  | _ => none

/-- A non-empty string field, the only shape `x?.y || fallback` keeps in the
positions the adapters read (non-string truthy values are not modelled). -/
def jsNonEmptyString : Option Js → Option String
  | some (.str s) => if s = "" then none else some s
  | _ => none

/-- `parseJsonSafe`: a body that failed to parse is replaced by `{}`. -/
def parseJsonSafe (body : Option Js) : Js :=
  body.getD (.obj [])

/-- `extractGeminiText(data)`. -/
def extractGeminiText (data : Js) : String :=
  match (jsGet data "candidates").bind jsIndex0 |>.bind (jsGet · "content") |>.bind (jsGet · "parts") with
  | some (.arr parts) =>
      jsTrim (String.intercalate "\n"
        (parts.map (fun part => (jsNonEmptyString (jsGet part "text")).getD "")))
  | _ => ""

/-- `extractGroqText(data)`. -/
def extractGroqText (data : Js) : String :=
  match (jsGet data "choices").bind jsIndex0 |>.bind (jsGet · "message") |>.bind (jsGet · "content") with
  | some (.str content) => jsTrim content
  | some (.arr content) =>
      jsTrim (String.intercalate "\n"
        (content.map (fun part =>
          match jsGet part "text" with
          | some (.str t) => t
          | _ => "")))
  | _ => ""

/-- `extractAnthropicText(data)`. -/
def extractAnthropicText (data : Js) : String :=
  match jsGet data "content" with
  | some (.arr blocks) =>
      jsTrim (String.intercalate "\n"
        (blocks.map (fun block =>
          match jsGet block "type", jsGet block "text" with
          | some (.str "text"), some (.str t) => t
          | some (.str "text"), _ => ""
          | _, _ => "")))
  | _ => ""

/-- An upstream HTTP response as the adapter sees it after `parseJsonSafe`:
`ok` is `response.ok`, `body` is `some` parsed JSON or `none` on a JSON
parse failure. -/
structure UpstreamResponse where
  ok : Bool
  body : Option Js
deriving Repr

/-- `requestGeminiDiagnosis` from the response on. -/
def requestGeminiDiagnosis (resp : UpstreamResponse) : Except String String :=
  let data := parseJsonSafe resp.body
  if !resp.ok then
    .error ((jsNonEmptyString ((jsGet data "error").bind (jsGet · "message"))).getD
      "Gemini request failed.")
  else
    let text := extractGeminiText data
    if text = "" then .error "Gemini returned an empty response." else .ok text

/-- `requestGroqDiagnosis` from the response on. -/
def requestGroqDiagnosis (resp : UpstreamResponse) : Except String String :=
  let data := parseJsonSafe resp.body
  if !resp.ok then
    .error ((jsNonEmptyString ((jsGet data "error").bind (jsGet · "message"))
      |>.orElse (fun _ => jsNonEmptyString (jsGet data "error"))).getD
      "Groq request failed.")
  else
    let text := extractGroqText data
    if text = "" then .error "Groq returned an empty response." else .ok text

/-- `requestAnthropicDiagnosis` from the response on. -/
def requestAnthropicDiagnosis (resp : UpstreamResponse) : Except String String :=
  let data := parseJsonSafe resp.body
  if !resp.ok then
    .error ((jsNonEmptyString ((jsGet data "error").bind (jsGet · "message"))).getD
      "Anthropic request failed.")
  else
    let text := extractAnthropicText data
    if text = "" then .error "Anthropic returned an empty response." else .ok text

inductive ProviderTag where
  | gemini
  | groq
  | anthropic
deriving Repr, DecidableEq

def adapterOf : ProviderTag → UpstreamResponse → Except String String
  | .gemini => requestGeminiDiagnosis
  | .groq => requestGroqDiagnosis
  | .anthropic => requestAnthropicDiagnosis

def extractOf : ProviderTag → Js → String
  | .gemini => extractGeminiText
  | .groq => extractGroqText
  | .anthropic => extractAnthropicText

def emptyResponseMessage : ProviderTag → String
  | .gemini => "Gemini returned an empty response."
  | .groq => "Groq returned an empty response."
  | .anthropic => "Anthropic returned an empty response."

/-! ### Server configuration and the fallback orchestrator -/

/-- The resolved server configuration object.  `fetchIsFunction` models
`typeof config.fetchImpl === "function"`, the only question the code asks
of `fetchImpl`. -/
structure ServerConfig where
  nodeEnv : String
  port : Nat
  geminiApiKey : String
  groqApiKey : String
  anthropicApiKey : String
  geminiModel : String
  groqModel : String
  anthropicModel : String
  allowedOrigins : List String
  diagnoseRateLimitMax : Nat
  apiRateLimitMax : Nat
  maxFileBytes : Nat
  trustProxy : Bool
  enableRequestLogging : Bool
  fetchIsFunction : Bool
  apiKey : String
deriving Repr, DecidableEq

def PROVIDER_PRIORITY : List String := ["gemini", "groq", "anthropic"]

/-- One entry of the `providers` array of `requestWithFallback`; the
adapter closure itself is abstracted by the `adapters` oracle below. -/
structure ProviderEntry where
  name : String
  enabled : Bool
deriving Repr, DecidableEq

/-- The `providers` array: `enabled` is `Boolean(<key>)`. -/
def providersOf (config : ServerConfig) : List ProviderEntry :=
  [ ⟨"gemini", config.geminiApiKey ≠ ""⟩,
    ⟨"groq", config.groqApiKey ≠ ""⟩,
    ⟨"anthropic", config.anthropicApiKey ≠ ""⟩ ]

/-- `providers.filter((provider) => provider.enabled)`. -/
def enabledProvidersOf (config : ServerConfig) : List ProviderEntry :=
  (providersOf config).filter (·.enabled)

/-- The names of the enabled providers, in the order of the `providers` array. -/
def enabledNames (config : ServerConfig) : List String :=
  (enabledProvidersOf config).map (·.name)

/-- `` `${provider.name}: ${error.message || "failed"}` ``. -/
def failureEntry (name msg : String) : String :=
  name ++ ": " ++ (if msg = "" then "failed" else msg)

/-- `` `All providers failed. ${errors.join(" | ")}` ``. -/
def allFailedMessage (errors : List String) : String :=
  "All providers failed. " ++ String.intercalate " | " errors

/-- Result and observable trace of one `requestWithFallback` run:
`attempted` lists the providers whose adapter was invoked, in invocation
order; `errors` is the `errors` array at the moment the loop ended. -/
structure FallbackTrace where
  result : Except String (String × String)
  attempted : List String
  errors : List String
deriving Repr

/-- The `for (const providerName of PROVIDER_PRIORITY)` loop.  An adapter
outcome is `adapters name`: `.ok text` for a resolved call, `.error msg`
for a rejected one (`msg` the thrown error's `.message`). -/
def fallbackLoop (adapters : String → Except String String)
    (enabled : List ProviderEntry) :
    List String → List String → FallbackTrace
  | [], errors => ⟨.error (allFailedMessage errors), [], errors⟩
  | providerName :: restPriority, errors =>
    match enabled.find? (fun entry => entry.name == providerName) with
    | none => fallbackLoop adapters enabled restPriority errors
    | some provider =>
      match adapters provider.name with
      | .ok text => ⟨.ok (provider.name, text), [provider.name], errors⟩
      | .error msg =>
        let rest := fallbackLoop adapters enabled restPriority
          (errors ++ [failureEntry provider.name msg])
        ⟨rest.result, provider.name :: rest.attempted, rest.errors⟩

/-- `requestWithFallback`, instrumented with its attempt trace. -/
def requestWithFallbackTraced (config : ServerConfig)
    (adapters : String → Except String String) : FallbackTrace :=
  let enabledProviders := enabledProvidersOf config
  if enabledProviders.isEmpty then
    ⟨.error "No AI provider key configured.", [], []⟩
  else
    fallbackLoop adapters enabledProviders PROVIDER_PRIORITY []

/-- `requestWithFallback`: `.ok (provider, text)` models the returned
`{ provider, text }`, `.error` the thrown error's message. -/
def requestWithFallback (config : ServerConfig)
    (adapters : String → Except String String) : Except String (String × String) :=
  (requestWithFallbackTraced config adapters).result

/-! ### ECMAScript `Number(string)` for finite values

`parseStrNumericLiteral` implements the `StrNumericLiteral` grammar with
exact rational values.  `none` stands for NaN and for ±Infinity: the code
under verification only ever feeds the result to `Number.isInteger` plus
range tests, on which all three behave identically (they fail).  Exact
rationals instead of IEEE doubles is the one deliberate abstraction: a
string such as "18.000000000000000001" rounds to the double 18, so its
ECMAScript parse IS the integer 18; the exact model keeps the unrounded
value, which only strengthens the validator modelled below. -/

def digitVal (c : Char) : Nat := c.toNat - '0'.toNat

def decDigitsToNat (ds : List Char) : Nat :=
  ds.foldl (fun a c => 10 * a + digitVal c) 0

def isHexDigitChar (c : Char) : Bool :=
  c.isDigit ∨ ('a' ≤ c ∧ c ≤ 'f') ∨ ('A' ≤ c ∧ c ≤ 'F')

def hexDigitVal (c : Char) : Nat :=
  if c.isDigit then digitVal c else (lowerAscii c).toNat - 'a'.toNat + 10

def hexDigitsToNat (ds : List Char) : Nat :=
  ds.foldl (fun a c => 16 * a + hexDigitVal c) 0

def isOctDigitChar (c : Char) : Bool := '0' ≤ c ∧ c ≤ '7'

def octDigitsToNat (ds : List Char) : Nat :=
  ds.foldl (fun a c => 8 * a + digitVal c) 0

def isBinDigitChar (c : Char) : Bool := c = '0' ∨ c = '1'

def binDigitsToNat (ds : List Char) : Nat :=
  ds.foldl (fun a c => 2 * a + digitVal c) 0

/-- Parse the optional `ExponentPart` occupying the whole rest of the input. -/
def parseExponent : List Char → Option ℤ
  | [] => some 0
  | e :: rest =>
    if e = 'e' ∨ e = 'E' then
      match rest with
      | '+' :: ds =>
        if ds ≠ [] ∧ ds.all Char.isDigit then some (decDigitsToNat ds : ℤ) else none
      | '-' :: ds =>
        if ds ≠ [] ∧ ds.all Char.isDigit then some (-(decDigitsToNat ds : ℤ)) else none
      | ds =>
        if ds ≠ [] ∧ ds.all Char.isDigit then some (decDigitsToNat ds : ℤ) else none
    else none

/-- The rational `m * 10^e`, built with `mkRat` (whose arithmetic the
kernel can evaluate, unlike the irreducible `Rat.mul`). -/
def sciToRat (m : ℤ) (e : ℤ) : ℚ :=
  if 0 ≤ e then mkRat (m * (10 : ℤ) ^ e.toNat) 1 else mkRat m ((10 : ℕ) ^ (-e).toNat)

/-- Parse `StrUnsignedDecimalLiteral` into mantissa and decimal exponent
(`Infinity`, modelled non-finite, yields `none`). -/
def parseUnsignedDecimalSci (cs : List Char) : Option (Nat × ℤ) :=
  if cs = "Infinity".data then none
  else
    let intDigits := cs.takeWhile Char.isDigit
    let rest := cs.dropWhile Char.isDigit
    match intDigits, rest with
    | [], '.' :: rest2 =>
      let frac := rest2.takeWhile Char.isDigit
      let rest3 := rest2.dropWhile Char.isDigit
      if frac = [] then none
      else (parseExponent rest3).map (fun e =>
        (decDigitsToNat frac, e - (frac.length : ℤ)))
    | [], _ => none
    | _ :: _, '.' :: rest2 =>
      let frac := rest2.takeWhile Char.isDigit
      let rest3 := rest2.dropWhile Char.isDigit
      (parseExponent rest3).map (fun e =>
        (decDigitsToNat (intDigits ++ frac), e - (frac.length : ℤ)))
    | _ :: _, rest1 =>
      (parseExponent rest1).map (fun e => (decDigitsToNat intDigits, e))

/-- Parse `StrNumericLiteral` (already whitespace-trimmed). -/
def parseStrNumericLiteral (cs : List Char) : Option ℚ :=
  match cs with
  | [] => some 0
  | '+' :: rest => (parseUnsignedDecimalSci rest).map (fun p => sciToRat p.1 p.2)
  | '-' :: rest => (parseUnsignedDecimalSci rest).map (fun p => sciToRat (-(p.1 : ℤ)) p.2)
  | '0' :: x :: rest =>
    if x = 'x' ∨ x = 'X' then
      if rest ≠ [] ∧ rest.all isHexDigitChar then some (sciToRat (hexDigitsToNat rest) 0) else none
    else if x = 'o' ∨ x = 'O' then
      if rest ≠ [] ∧ rest.all isOctDigitChar then some (sciToRat (octDigitsToNat rest) 0) else none
    else if x = 'b' ∨ x = 'B' then
      if rest ≠ [] ∧ rest.all isBinDigitChar then some (sciToRat (binDigitsToNat rest) 0) else none
    else (parseUnsignedDecimalSci cs).map (fun p => sciToRat p.1 p.2)
  | _ => (parseUnsignedDecimalSci cs).map (fun p => sciToRat p.1 p.2)

/-- `Number(s)` for a finite result (`none`: NaN or ±Infinity). -/
def jsNumberFinite (s : String) : Option ℚ :=
  parseStrNumericLiteral (jsTrimList s.data)

/-- `s || fallback` for strings. -/
def jsOrStr (s fallback : String) : String :=
  if s = "" then fallback else s

/-- `Number.isInteger(q) && 1 <= q && q <= 18`, decided on the normalized
numerator and denominator: a rational is an integer iff its reduced
denominator is 1, and then the comparisons are comparisons of the
numerator (`intRange1to18_iff` below proves this reading). -/
def intRange1to18 (q : ℚ) : Bool :=
  q.den = 1 ∧ 1 ≤ q.num ∧ q.num ≤ 18

example : jsNumberFinite "12" = some 12 := by decide
example : jsNumberFinite " 12 " = some 12 := by decide
example : jsNumberFinite "0x12" = some 18 := by decide
example : jsNumberFinite "2.5" = some (mkRat 5 2) := by decide
example : jsNumberFinite "12a" = none := by decide
example : jsNumberFinite "1e1" = some 10 := by decide
example : jsNumberFinite "" = some 0 := by decide
example : jsNumberFinite ".5e1" = some 5 := by decide
example : jsNumberFinite "-12" = some (mkRat (-12) 1) := by decide
example : jsNumberFinite "Infinity" = none := by decide
example : intRange1to18 (mkRat 12 1) = true := by decide
example : intRange1to18 (mkRat 5 2) = false := by decide


/-! ### The diagnosis request schema (`createDiagnosisSchema`)

The request body is modelled already JSON-typed (a field of the wrong
JSON type fails the zod type layer before any rule here matters, and no
claim concerns those type errors).  `age` is `string | number` with the
absent case (zod `.optional().default("")`) explicit; a JS number is
`num (some q)` when finite and `num none` for NaN/±Infinity.  The
`.optional().nullable()` file field collapses `undefined` and `null`. -/

inductive AgeValue where
  | absent
  | str (s : String)
  | num (q : Option ℚ)
deriving Repr, DecidableEq

structure RequestBody where
  symptoms : String
  name : Option String
  age : AgeValue
  language : Option String
  readingLevel : Option String
  file : Option FileUpload
deriving Repr, DecidableEq

/-- The parsed payload (zod output: trims and defaults applied). -/
structure DiagnosisPayload where
  symptoms : String
  name : String
  age : AgeValue
  language : String
  readingLevel : String
  file : Option FileUpload
deriving Repr, DecidableEq

def SUPPORTED_LANGUAGES : List String := ["en", "es", "fr"]

def SUPPORTED_READING_LEVELS : List String := ["very_simple", "simple", "detailed"]

def IMAGE_MIME_TYPES : List String := ["image/jpeg", "image/png", "image/webp"]

def ALLOWED_UPLOAD_MIME_TYPES : List String :=
  IMAGE_MIME_TYPES ++ ["application/pdf", "text/plain"]

/-- The base64 charset test `/^[A-Za-z0-9+/=]+$/` (note: requires at least
one character). -/
def isBase64Charset (cs : List Char) : Bool :=
  cs ≠ [] ∧ cs.all (fun c =>
    ('A' ≤ c ∧ c ≤ 'Z') ∨ ('a' ≤ c ∧ c ≤ 'z') ∨ ('0' ≤ c ∧ c ≤ '9') ∨
    c = '+' ∨ c = '/' ∨ c = '=')

/-- `estimateBase64Size(base64Payload)`; the result is an `ℤ` because the
JS expression can go negative on degenerate payloads. -/
def estimateBase64Size (base64Payload : String) : ℤ :=
  let normalized := base64Payload.data.filter (fun c => !jsIsWhitespace c)
  let padding : ℤ :=
    if normalized.reverse.take 2 = ['=', '='] then 2
    else if normalized.reverse.take 1 = ['='] then 1
    else 0
  ((normalized.length * 3) / 4 : ℕ) - padding

/-- Field-level checks of the `file` object schema (zod default messages
for the unlabelled `min`/`max` bounds are abbreviated). -/
def fileFieldIssues (f : FileUpload) : List String :=
  (if f.base64.length < 16 then ["Invalid file content."] else []) ++
  (if f.base64.length > 6000000 then ["File payload is too large."] else []) ++
  (if (jsTrim f.mimeType).length < 3 then ["String must contain at least 3 character(s)"] else []) ++
  (if (jsTrim f.mimeType).length > 120 then ["String must contain at most 120 character(s)"] else []) ++
  (if (jsTrim f.fileName).length > 200 then ["String must contain at most 200 character(s)"] else [])

/-- The `superRefine` of the `file` object schema, applied to the
field-parsed value (mime type already trimmed). -/
def fileRefineIssues (maxFileBytes : ℕ) (f : FileUpload) : List String :=
  let normalizedMimeType := lowerAsciiString (jsTrim f.mimeType)
  let cleanBase64 := f.base64.data.filter (fun c => !jsIsWhitespace c)
  (if !isBase64Charset cleanBase64 then ["Uploaded file content is invalid."] else []) ++
  (if !ALLOWED_UPLOAD_MIME_TYPES.contains normalizedMimeType then
    ["Unsupported upload type. Use JPEG, PNG, WEBP, PDF, or TXT."] else []) ++
  (if f.isImage ∧ !IMAGE_MIME_TYPES.contains normalizedMimeType then
    ["Image uploads must be JPEG, PNG, or WEBP."] else []) ++
  (if estimateBase64Size ⟨cleanBase64⟩ > (maxFileBytes : ℤ) then
    ["File is too large. Max size is " ++ toString (maxFileBytes / (1024 * 1024)) ++ "MB."] else [])

/-- The object-level `superRefine`: does the age rule add its issue?
`String(value.age ?? "")` for a string age is the string itself, for a
finite number its decimal rendering (whitespace-free and non-empty, and
`Number` of it round-trips to the same value), for NaN/±Infinity the
non-empty literals `"NaN"`/`"Infinity"`/`"-Infinity"` (whose `Number` is
again non-finite). -/
def ageCheckFails : AgeValue → Bool
  | .absent => false
  | .str s =>
    let t := jsTrimList s.data
    if t.isEmpty then false
    else
      match parseStrNumericLiteral t with
      | none => true
      | some q => !intRange1to18 q
  | .num none => true
  | .num (some q) => !intRange1to18 q

/-- The issue messages of the base object parse (field checks in
declaration order; the file refinement runs only when the file field
checks pass, as in zod). -/
def baseIssuesOf (maxFileBytes : Nat) (body : RequestBody) : List String :=
  (if (jsTrim body.symptoms).length < 3 then ["Please provide symptoms."] else []) ++
  (if (jsTrim body.symptoms).length > 1500 then ["Symptoms are too long."] else []) ++
  (match body.name with
   | none => []
   | some n => if (jsTrim n).length > 50 then ["Name is too long."] else []) ++
  (match body.language with
   | none => []
   | some l => if SUPPORTED_LANGUAGES.contains l then [] else ["Invalid enum value."]) ++
  (match body.readingLevel with
   | none => []
   | some r => if SUPPORTED_READING_LEVELS.contains r then [] else ["Invalid enum value."]) ++
  (match body.file with
   | none => []
   | some f =>
     let fieldIssues := fileFieldIssues f
     fieldIssues ++ (if fieldIssues = [] then fileRefineIssues maxFileBytes f else []))

/-- `createDiagnosisSchema(maxFileBytes).safeParse(body)`: `.error` carries
the issue messages in evaluation order, `.ok` the parsed payload.  The
object-level age refinement runs only when the base object parse produced
no issue, as in zod. -/
def validateDiagnosis (maxFileBytes : Nat) (body : RequestBody) :
    Except (List String) DiagnosisPayload :=
  if baseIssuesOf maxFileBytes body = [] then
    if ageCheckFails body.age then
      .error ["Age must be a whole number from 1 to 18."]
    else
      .ok
        { symptoms := jsTrim body.symptoms
          name := (body.name.map jsTrim).getD ""
          age := match body.age with | .absent => .str "" | a => a
          language := body.language.getD "en"
          readingLevel := body.readingLevel.getD "simple"
          file := body.file.map (fun f =>
            { f with mimeType := jsTrim f.mimeType, fileName := jsTrim f.fileName }) }
  else
    .error (baseIssuesOf maxFileBytes body)

/-! ### The diagnose handler (`app.post("/api/diagnose")`) -/

structure HandoffRecord where
  createdAt : String
  childName : String
  childAge : String
  symptoms : String
  language : String
  readingLevel : String
deriving Repr, DecidableEq

/-- The JSON body and status of the handler's response; absent fields are
`none`. -/
structure ApiResponse where
  status : Nat
  error : Option String
  result : Option String
  provider : Option String
  triage : Option TriageResult
  handoff : Option HandoffRecord
deriving Repr, DecidableEq

def MISSING_KEYS_ERROR : String :=
  "Server is missing provider keys. Configure GEMINI_API_KEY, GROQ_API_KEY, or ANTHROPIC_API_KEY."

def FETCH_NOT_CONFIGURED_ERROR : String :=
  "Server fetch client is not configured."

/-- `String(payload.age || "")`.  A validated payload only ever reaches
this with a string age or an integer in [1,18]; the unreachable
non-integral and non-finite number cases are rendered inexactly (and
NaN/±Infinity, both collapsed in the model, as the falsy-NaN branch). -/
def ageDisplayString : AgeValue → String
  | .absent => ""
  | .str s => s
  | .num none => ""
  | .num (some q) =>
    if q = 0 then "" else if q.den = 1 then toString q.num else toString q

/-- The `/api/diagnose` handler.  `now` stands for `new Date().toISOString()`;
`adapters name systemPrompt userText file` is the outcome of the named
provider's adapter on the given arguments. -/
def diagnoseHandler (config : ServerConfig) (now : String)
    (adapters : String → String → String → Option FileUpload → Except String String)
    (body : RequestBody) : ApiResponse :=
  if config.geminiApiKey = "" ∧ config.groqApiKey = "" ∧ config.anthropicApiKey = "" then
    ⟨500, some MISSING_KEYS_ERROR, none, none, none, none⟩
  else if !config.fetchIsFunction then
    ⟨500, some FETCH_NOT_CONFIGURED_ERROR, none, none, none, none⟩
  else
    match validateDiagnosis config.maxFileBytes body with
    | .error issues =>
      ⟨400, some (jsOrStr (issues.head?.getD "") "Invalid input payload."), none, none, none, none⟩
    | .ok payload =>
      let childName := jsOrStr payload.name "little friend"
      let ageText := jsTrim (ageDisplayString payload.age)
      let childAge := if ageText = "" then "a young child" else ageText ++ " years old"
      let triage := detectTriage payload.symptoms payload.language
      let systemPrompt :=
        buildSystemPrompt childName childAge payload.language payload.readingLevel triage.level
      let userText :=
        buildUserText payload.symptoms childName childAge payload.language payload.readingLevel
          payload.file
      match requestWithFallback config (fun name => adapters name systemPrompt userText payload.file) with
      | .ok (provider, text) =>
        ⟨200, none, some text, some provider, some triage,
          some ⟨now, childName, childAge, payload.symptoms, payload.language, payload.readingLevel⟩⟩
      | .error msg =>
        ⟨502, some (jsOrStr msg "Could not reach AI provider. Please try again."), none, none, none, none⟩

/-! ### Configuration resolution (`createServerConfig`) -/

def DEFAULT_ALLOWED_ORIGINS : List String := ["http://localhost:5173"]

def DEFAULT_GEMINI_MODEL : String := "gemini-2.5-flash"

def DEFAULT_GROQ_MODEL : String := "meta-llama/llama-4-scout-17b-16e-instruct"

def DEFAULT_ANTHROPIC_MODEL : String := "claude-sonnet-4-20250514"

/-- `parsePositiveInt(value, fallback)`; the `Number.isInteger(n) && n > 0`
test is decided on the exact rational as in `intRange1to18`. -/
def parsePositiveInt (value : String) (fallback : Nat) : Nat :=
  match jsNumberFinite value with
  | none => fallback
  | some q => if q.den = 1 ∧ 0 < q.num then q.num.toNat else fallback

/-- `parseAllowedOrigins(value)`. -/
def parseAllowedOrigins (value : String) : List String :=
  let fromEnv := ((value.splitOn ",").map jsTrim).filter (· ≠ "")
  if fromEnv ≠ [] then fromEnv else DEFAULT_ALLOWED_ORIGINS

/-- The `process.env` slots the server reads; the empty string models an
unset variable (the code only ever reads them through `||`-style
fallbacks, `=== "true"` / `!== "false"` tests and `Number`, on which the
empty string and `undefined` agree).  `globalFetchIsFunction` is whether
`globalThis.fetch` is a function. -/
structure EnvVars where
  NODE_ENV : String := ""
  PORT : String := ""
  GEMINI_API_KEY : String := ""
  GROQ_API_KEY : String := ""
  ANTHROPIC_API_KEY : String := ""
  GEMINI_MODEL : String := ""
  GROQ_MODEL : String := ""
  ANTHROPIC_MODEL : String := ""
  MODEL : String := ""
  CORS_ORIGIN : String := ""
  RATE_LIMIT_MAX : String := ""
  API_RATE_LIMIT_MAX : String := ""
  MAX_FILE_BYTES : String := ""
  TRUST_PROXY : String := ""
  ENABLE_REQUEST_LOGGING : String := ""
  globalFetchIsFunction : Bool := true
deriving Repr, DecidableEq

/-- The `overrides` argument of `createServerConfig`: `some` for a key the
caller's object supplies (the object spread replaces exactly those keys). -/
structure ConfigOverrides where
  nodeEnv : Option String := none
  port : Option Nat := none
  geminiApiKey : Option String := none
  groqApiKey : Option String := none
  anthropicApiKey : Option String := none
  geminiModel : Option String := none
  groqModel : Option String := none
  anthropicModel : Option String := none
  allowedOrigins : Option (List String) := none
  diagnoseRateLimitMax : Option Nat := none
  apiRateLimitMax : Option Nat := none
  maxFileBytes : Option Nat := none
  trustProxy : Option Bool := none
  enableRequestLogging : Option Bool := none
  fetchIsFunction : Option Bool := none
  apiKey : Option String := none
deriving Repr, DecidableEq

/-- The `resolved` object of `createServerConfig` before the legacy
`apiKey` aliasing step. -/
def resolvedServerConfig (env : EnvVars) (o : ConfigOverrides) : ServerConfig :=
  { nodeEnv := o.nodeEnv.getD (jsOrStr env.NODE_ENV "development")
    port := o.port.getD (parsePositiveInt env.PORT 8787)
    geminiApiKey := o.geminiApiKey.getD env.GEMINI_API_KEY
    groqApiKey := o.groqApiKey.getD env.GROQ_API_KEY
    anthropicApiKey := o.anthropicApiKey.getD env.ANTHROPIC_API_KEY
    geminiModel := o.geminiModel.getD (jsOrStr env.GEMINI_MODEL DEFAULT_GEMINI_MODEL)
    groqModel := o.groqModel.getD (jsOrStr env.GROQ_MODEL DEFAULT_GROQ_MODEL)
    anthropicModel :=
      o.anthropicModel.getD (jsOrStr env.ANTHROPIC_MODEL (jsOrStr env.MODEL DEFAULT_ANTHROPIC_MODEL))
    allowedOrigins := o.allowedOrigins.getD (parseAllowedOrigins env.CORS_ORIGIN)
    diagnoseRateLimitMax := o.diagnoseRateLimitMax.getD (parsePositiveInt env.RATE_LIMIT_MAX 20)
    apiRateLimitMax := o.apiRateLimitMax.getD (parsePositiveInt env.API_RATE_LIMIT_MAX 120)
    maxFileBytes := o.maxFileBytes.getD (parsePositiveInt env.MAX_FILE_BYTES (4 * 1024 * 1024))
    trustProxy := o.trustProxy.getD (env.TRUST_PROXY = "true")
    enableRequestLogging := o.enableRequestLogging.getD (env.ENABLE_REQUEST_LOGGING ≠ "false")
    fetchIsFunction := o.fetchIsFunction.getD env.globalFetchIsFunction
    apiKey := o.apiKey.getD "" }

/-- `createServerConfig(overrides)`: resolution followed by the legacy
single-provider aliasing `if (resolved.apiKey && !resolved.anthropicApiKey)`. -/
def createServerConfig (env : EnvVars) (o : ConfigOverrides) : ServerConfig :=
  let resolved := resolvedServerConfig env o
  if resolved.apiKey ≠ "" ∧ resolved.anthropicApiKey = "" then
    { resolved with anthropicApiKey := resolved.apiKey }
  else
    resolved

/-! ### Characterizing the fallback loop -/

/-- The failure entry a provider contributes, read off the adapter oracle. -/
def failureOf (adapters : String → Except String String) (n : String) : String :=
  failureEntry n (match adapters n with | .error m => m | .ok _ => "")

/-- Walking a list of (enabled) provider names directly. -/
def fallbackWalk (adapters : String → Except String String) :
    List String → List String → FallbackTrace
  | [], errors => ⟨.error (allFailedMessage errors), [], errors⟩
  | n :: rest, errors =>
    match adapters n with
    | .ok text => ⟨.ok (n, text), [n], errors⟩
    | .error msg =>
      let r := fallbackWalk adapters rest (errors ++ [failureEntry n msg])
      ⟨r.result, n :: r.attempted, r.errors⟩

theorem fallbackLoop_eq_walk (adapters : String → Except String String)
    (enabled : List ProviderEntry) :
    ∀ (priority : List String) (errors : List String),
      fallbackLoop adapters enabled priority errors =
        fallbackWalk adapters
          (priority.filter (fun n => ((enabled.find? (fun e => e.name == n)).isSome))) errors := by
  intro priority
  induction priority with
  | nil => intro errors; rfl
  | cons n rest ih =>
    intro errors
    rcases hf : enabled.find? (fun e => e.name == n) with _ | a
    · rw [fallbackLoop, hf]
      rw [List.filter_cons_of_neg (by simp [hf])]
      exact ih errors
    · have hname : a.name = n := by
        have h1 := List.find?_some hf
        simpa using h1
      rw [fallbackLoop, hf]
      rw [List.filter_cons_of_pos (by simp [hf])]
      rw [fallbackWalk, ← hname]
      rcases ha : adapters a.name with m | t
      · simp only [ha, ← ih]
      · simp only [ha]

theorem fallbackWalk_spec (adapters : String → Except String String) :
    ∀ (E errors : List String),
      (fallbackWalk adapters E errors).attempted =
        E.takeWhile (fun n => !(adapters n).isOk) ++
          (E.dropWhile (fun n => !(adapters n).isOk)).take 1
      ∧ (fallbackWalk adapters E errors).errors =
        errors ++ (E.takeWhile (fun n => !(adapters n).isOk)).map (failureOf adapters)
      ∧ (E.dropWhile (fun n => !(adapters n).isOk) = [] →
          (fallbackWalk adapters E errors).result =
            .error (allFailedMessage (errors ++ E.map (failureOf adapters))))
      ∧ (∀ p rest, E.dropWhile (fun n => !(adapters n).isOk) = p :: rest →
          ∃ t, adapters p = .ok t ∧ (fallbackWalk adapters E errors).result = .ok (p, t)) := by
  intro E
  induction E with
  | nil =>
    intro errors
    refine ⟨by simp [fallbackWalk], by simp [fallbackWalk], ?_, ?_⟩
    · intro _; simp [fallbackWalk]
    · intro p rest h; simp at h
  | cons n E' ih =>
    intro errors
    rcases h : adapters n with m | t
    · have hpred : (!(adapters n).isOk) = true := by rw [h]; rfl
      have hfo : failureOf adapters n = failureEntry n m := by simp [failureOf, h]
      have htake : (n :: E').takeWhile (fun k => !(adapters k).isOk) =
          n :: E'.takeWhile (fun k => !(adapters k).isOk) := by
        rw [List.takeWhile_cons, if_pos hpred]
      have hdropc : (n :: E').dropWhile (fun k => !(adapters k).isOk) =
          E'.dropWhile (fun k => !(adapters k).isOk) := by
        rw [List.dropWhile_cons, if_pos hpred]
      have hwalk : fallbackWalk adapters (n :: E') errors =
          ⟨(fallbackWalk adapters E' (errors ++ [failureEntry n m])).result,
           n :: (fallbackWalk adapters E' (errors ++ [failureEntry n m])).attempted,
           (fallbackWalk adapters E' (errors ++ [failureEntry n m])).errors⟩ := by
        simp only [fallbackWalk, h]
      obtain ⟨iha, ihe, ihf, ihs⟩ := ih (errors ++ [failureEntry n m])
      refine ⟨?_, ?_, ?_, ?_⟩
      · rw [htake, hdropc, hwalk]
        rw [iha, List.cons_append]
      · rw [htake, hwalk]
        rw [ihe, List.map_cons, hfo, List.append_assoc, List.singleton_append]
      · intro hdrop
        rw [hdropc] at hdrop
        rw [hwalk]
        rw [ihf hdrop, List.map_cons, hfo, List.append_assoc, List.singleton_append]
      · intro p rest hdrop
        rw [hdropc] at hdrop
        obtain ⟨t, ht, hres⟩ := ihs p rest hdrop
        exact ⟨t, ht, by rw [hwalk]; exact hres⟩
    · have hpred : (!(adapters n).isOk) = false := by rw [h]; rfl
      have htake : (n :: E').takeWhile (fun k => !(adapters k).isOk) = [] := by
        rw [List.takeWhile_cons, if_neg (by rw [hpred]; exact Bool.false_ne_true)]
      have hdropc : (n :: E').dropWhile (fun k => !(adapters k).isOk) = n :: E' := by
        rw [List.dropWhile_cons, if_neg (by rw [hpred]; exact Bool.false_ne_true)]
      have hwalk : fallbackWalk adapters (n :: E') errors = ⟨.ok (n, t), [n], errors⟩ := by
        simp only [fallbackWalk, h]
      refine ⟨?_, ?_, ?_, ?_⟩
      · rw [htake, hdropc, hwalk]
        simp
      · rw [htake, hwalk]
        simp
      · intro hdrop
        rw [hdropc] at hdrop
        exact absurd hdrop (List.cons_ne_nil n E')
      · intro p rest hdrop
        rw [hdropc] at hdrop
        obtain ⟨rfl, _⟩ := List.cons.inj hdrop
        exact ⟨t, h, by rw [hwalk]⟩

theorem enabledNames_filter_priority (config : ServerConfig) :
    PROVIDER_PRIORITY.filter
        (fun n => ((enabledProvidersOf config).find? (fun e => e.name == n)).isSome) =
      enabledNames config := by
  by_cases hg : config.geminiApiKey = "" <;>
    by_cases hq : config.groqApiKey = "" <;>
      by_cases ha : config.anthropicApiKey = "" <;>
        simp [enabledNames, enabledProvidersOf, providersOf, PROVIDER_PRIORITY, hg, hq, ha,
          List.filter, List.find?]

theorem enabledNames_shape (config : ServerConfig) :
    enabledNames config =
      (if config.geminiApiKey ≠ "" then ["gemini"] else []) ++
      (if config.groqApiKey ≠ "" then ["groq"] else []) ++
      (if config.anthropicApiKey ≠ "" then ["anthropic"] else []) := by
  by_cases hg : config.geminiApiKey = "" <;>
    by_cases hq : config.groqApiKey = "" <;>
      by_cases ha : config.anthropicApiKey = "" <;>
        simp [enabledNames, enabledProvidersOf, providersOf, hg, hq, ha, List.filter]

theorem requestWithFallbackTraced_eq_walk (config : ServerConfig)
    (adapters : String → Except String String) (hne : enabledNames config ≠ []) :
    requestWithFallbackTraced config adapters =
      fallbackWalk adapters (enabledNames config) [] := by
  have hmem : (enabledProvidersOf config).isEmpty = false := by
    rcases he : enabledProvidersOf config with _ | ⟨a, l⟩
    · exact absurd (by simp [enabledNames, he]) hne
    · rfl
  simp only [requestWithFallbackTraced, hmem, Bool.false_eq_true, if_neg, reduceIte]
  rw [fallbackLoop_eq_walk, enabledNames_filter_priority]

/-- C1: `requestWithFallback` tries providers in the fixed priority order
gemini, groq, anthropic, skipping providers with an empty credential; the
first adapter success yields the result `{provider, text}` with no later
provider attempted; each failing provider contributes exactly one
`"<name>: <message>"` entry, in attempt order, before the next enabled
provider is tried; and in the gemini-fails/groq-succeeds scenario the
outcome names groq after exactly the two adapter calls gemini, groq. -/
theorem requestWithFallback_priority_first_success (config : ServerConfig)
    (adapters : String → Except String String) :
    enabledNames config =
      (if config.geminiApiKey ≠ "" then ["gemini"] else []) ++
      (if config.groqApiKey ≠ "" then ["groq"] else []) ++
      (if config.anthropicApiKey ≠ "" then ["anthropic"] else [])
    ∧ (enabledNames config ≠ [] →
        (requestWithFallbackTraced config adapters).attempted =
          (enabledNames config).takeWhile (fun n => !(adapters n).isOk) ++
            ((enabledNames config).dropWhile (fun n => !(adapters n).isOk)).take 1
        ∧ (requestWithFallbackTraced config adapters).errors =
          ((enabledNames config).takeWhile (fun n => !(adapters n).isOk)).map (failureOf adapters)
        ∧ (∀ p rest, (enabledNames config).dropWhile (fun n => !(adapters n).isOk) = p :: rest →
            ∃ t, adapters p = .ok t ∧
              (requestWithFallbackTraced config adapters).result = .ok (p, t)))
    ∧ (∀ e t, config.geminiApiKey ≠ "" → config.groqApiKey ≠ "" →
        adapters "gemini" = .error e → adapters "groq" = .ok t →
        (requestWithFallbackTraced config adapters).result = .ok ("groq", t)
        ∧ (requestWithFallbackTraced config adapters).attempted = ["gemini", "groq"]
        ∧ (requestWithFallbackTraced config adapters).errors = [failureEntry "gemini" e]) := by
  refine ⟨enabledNames_shape config, ?_, ?_⟩
  · intro hne
    obtain ⟨ha, he, _, hs⟩ := fallbackWalk_spec adapters (enabledNames config) []
    rw [requestWithFallbackTraced_eq_walk config adapters hne]
    exact ⟨ha, by rw [he, List.nil_append], hs⟩
  · intro e t hg hq hfail hok
    have hne : enabledNames config ≠ [] := by
      rw [enabledNames_shape config, if_pos hg, if_pos hq]
      simp
    have hE : enabledNames config =
        "gemini" :: "groq" :: (if config.anthropicApiKey ≠ "" then ["anthropic"] else []) := by
      rw [enabledNames_shape config, if_pos hg, if_pos hq]
      rfl
    have hpg : (!(adapters "gemini").isOk) = true := by rw [hfail]; rfl
    have hpq : (!(adapters "groq").isOk) = false := by rw [hok]; rfl
    have htake : (enabledNames config).takeWhile (fun n => !(adapters n).isOk) = ["gemini"] := by
      rw [hE, List.takeWhile_cons, if_pos hpg, List.takeWhile_cons,
        if_neg (by rw [hpq]; exact Bool.false_ne_true)]
    have hdrop : (enabledNames config).dropWhile (fun n => !(adapters n).isOk) =
        "groq" :: (if config.anthropicApiKey ≠ "" then ["anthropic"] else []) := by
      rw [hE, List.dropWhile_cons, if_pos hpg, List.dropWhile_cons,
        if_neg (by rw [hpq]; exact Bool.false_ne_true)]
    obtain ⟨ha, he, _, hs⟩ := fallbackWalk_spec adapters (enabledNames config) []
    rw [requestWithFallbackTraced_eq_walk config adapters hne]
    obtain ⟨t', ht', hres⟩ := hs "groq" _ hdrop
    have htt : t' = t := by rw [hok] at ht'; exact (Except.ok.inj ht').symm
    refine ⟨by rw [hres, htt], ?_, ?_⟩
    · rw [ha, htake, hdrop]
      rfl
    · rw [he, htake, List.nil_append, List.map_cons, List.map_nil]
      simp [failureOf, hfail]

def cfgGeminiGroq : ServerConfig :=
  { nodeEnv := "test", port := 8787, geminiApiKey := "gem-key", groqApiKey := "groq-key",
    anthropicApiKey := "anth-key", geminiModel := "", groqModel := "", anthropicModel := "",
    allowedOrigins := [], diagnoseRateLimitMax := 20, apiRateLimitMax := 120,
    maxFileBytes := 4194304, trustProxy := false, enableRequestLogging := false,
    fetchIsFunction := true, apiKey := "" }

def adaptersGeminiFailsGroqOk : String → Except String String := fun n =>
  if n = "gemini" then .error "gemini unavailable"
  else if n = "groq" then .ok "Groq fallback response"
  else .error "not reached"

theorem requestWithFallback_priority_first_success_witness :
    (requestWithFallbackTraced cfgGeminiGroq adaptersGeminiFailsGroqOk).result =
      .ok ("groq", "Groq fallback response")
    ∧ (requestWithFallbackTraced cfgGeminiGroq adaptersGeminiFailsGroqOk).attempted =
      ["gemini", "groq"] := by
  obtain ⟨h1, h2, _⟩ :=
    (requestWithFallback_priority_first_success cfgGeminiGroq adaptersGeminiFailsGroqOk).2.2
      "gemini unavailable" "Groq fallback response" (by decide) (by decide) rfl rfl
  exact ⟨h1, h2⟩

/-- C4: with zero configured provider credentials, `requestWithFallback`
throws its configuration error before attempting any provider (no adapter
call, no failure entry), and the diagnose handler answers with the
missing-provider-keys configuration error for every request body, before
any other work. -/
theorem noProviderKeys_fails_without_attempts (config : ServerConfig)
    (hg : config.geminiApiKey = "") (hq : config.groqApiKey = "")
    (ha : config.anthropicApiKey = "") :
    (∀ adapters, requestWithFallbackTraced config adapters =
      ⟨.error "No AI provider key configured.", [], []⟩)
    ∧ (∀ now adapters body, diagnoseHandler config now adapters body =
      ⟨500, some MISSING_KEYS_ERROR, none, none, none, none⟩) := by
  constructor
  · intro adapters
    have hempty : (enabledProvidersOf config).isEmpty = true := by
      simp [enabledProvidersOf, providersOf, hg, hq, ha, List.filter]
    simp only [requestWithFallbackTraced, hempty, if_pos]
  · intro now adapters body
    unfold diagnoseHandler
    rw [if_pos ⟨hg, hq, ha⟩]

def cfgNoKeys : ServerConfig :=
  { nodeEnv := "test", port := 8787, geminiApiKey := "", groqApiKey := "",
    anthropicApiKey := "", geminiModel := "", groqModel := "", anthropicModel := "",
    allowedOrigins := [], diagnoseRateLimitMax := 20, apiRateLimitMax := 120,
    maxFileBytes := 4194304, trustProxy := false, enableRequestLogging := false,
    fetchIsFunction := true, apiKey := "" }

def bodyHeadache : RequestBody :=
  { symptoms := "headache", name := none, age := .absent, language := none,
    readingLevel := none, file := none }

theorem noProviderKeys_fails_without_attempts_witness :
    requestWithFallbackTraced cfgNoKeys adaptersGeminiFailsGroqOk =
      ⟨.error "No AI provider key configured.", [], []⟩
    ∧ diagnoseHandler cfgNoKeys "t0" (fun _ _ _ _ => .ok "unused") bodyHeadache =
      ⟨500, some MISSING_KEYS_ERROR, none, none, none, none⟩ :=
  ⟨(noProviderKeys_fails_without_attempts cfgNoKeys rfl rfl rfl).1 adaptersGeminiFailsGroqOk,
   (noProviderKeys_fails_without_attempts cfgNoKeys rfl rfl rfl).2 "t0"
     (fun _ _ _ _ => .ok "unused") bodyHeadache⟩

/-- C5: when every enabled provider's adapter fails, `requestWithFallback`
fails with the single aggregate message listing one `"<name>: <message>"`
entry per attempted provider in attempt order; and an error outcome
occurs only once every enabled provider has been attempted and failed, so
no individual failure is surfaced before exhaustion. -/
theorem requestWithFallback_aggregate_error (config : ServerConfig)
    (adapters : String → Except String String) (hne : enabledNames config ≠ []) :
    ((∀ n ∈ enabledNames config, (adapters n).isOk = false) →
      (requestWithFallbackTraced config adapters).result =
        .error (allFailedMessage ((enabledNames config).map (failureOf adapters)))
      ∧ (requestWithFallbackTraced config adapters).attempted = enabledNames config
      ∧ (requestWithFallbackTraced config adapters).errors =
        (enabledNames config).map (failureOf adapters))
    ∧ (∀ e, (requestWithFallbackTraced config adapters).result = .error e →
        (∀ n ∈ enabledNames config, (adapters n).isOk = false)
        ∧ e = allFailedMessage ((enabledNames config).map (failureOf adapters))
        ∧ (requestWithFallbackTraced config adapters).attempted = enabledNames config) := by
  obtain ⟨ha, he, hf, hs⟩ := fallbackWalk_spec adapters (enabledNames config) []
  rw [requestWithFallbackTraced_eq_walk config adapters hne] at *
  constructor
  · intro hall
    have hdrop : (enabledNames config).dropWhile (fun n => !(adapters n).isOk) = [] := by
      rw [List.dropWhile_eq_nil_iff]
      intro n hn
      rw [hall n hn]
      rfl
    have htake : (enabledNames config).takeWhile (fun n => !(adapters n).isOk) =
        enabledNames config := by
      rw [List.takeWhile_eq_self_iff]
      intro n hn
      rw [hall n hn]
      rfl
    refine ⟨by rw [hf hdrop, List.nil_append], ?_, ?_⟩
    · rw [ha, htake, hdrop]
      simp
    · rw [he, htake, List.nil_append]
  · intro e herr
    rcases hdrop : (enabledNames config).dropWhile (fun n => !(adapters n).isOk) with _ | ⟨p, rest⟩
    · have hall : ∀ n ∈ enabledNames config, (adapters n).isOk = false := by
        intro n hn
        have := (List.dropWhile_eq_nil_iff).mp hdrop n hn
        simpa using this
      have htake : (enabledNames config).takeWhile (fun n => !(adapters n).isOk) =
          enabledNames config := by
        rw [List.takeWhile_eq_self_iff]
        intro n hn
        rw [hall n hn]
        rfl
      refine ⟨hall, ?_, ?_⟩
      · have := hf hdrop
        rw [herr] at this
        rw [List.nil_append] at this
        exact (Except.error.inj this)
      · rw [ha, htake, hdrop]
        simp
    · obtain ⟨t, _, hres⟩ := hs p rest hdrop
      rw [herr] at hres
      exact absurd hres (by simp)

def adaptersAllFail : String → Except String String := fun n =>
  if n = "gemini" then .error "gemini unavailable"
  else if n = "groq" then .error "groq down" else .error "anthropic down"

theorem requestWithFallback_aggregate_error_witness :
    (requestWithFallbackTraced cfgGeminiGroq adaptersAllFail).result =
      .error
        "All providers failed. gemini: gemini unavailable | groq: groq down | anthropic: anthropic down"
    ∧ (requestWithFallbackTraced cfgGeminiGroq adaptersAllFail).attempted =
      ["gemini", "groq", "anthropic"] := by
  obtain ⟨h1, h2, _⟩ :=
    (requestWithFallback_aggregate_error cfgGeminiGroq adaptersAllFail (by decide)).1 (by decide)
  constructor
  · rw [h1]
    rfl
  · rw [h2]
    rfl

/-- C10: the diagnose handler checks provider credentials and the fetch
transport before running the input validator: with no provider key the
response is the missing-keys configuration error for every body (valid or
not), and with a key but no fetch function it is the fetch configuration
error for every body, so an invalid payload cannot yield a validation
failure in either situation. -/
theorem diagnose_checks_precede_validation (config : ServerConfig) (now : String)
    (adapters : String → String → String → Option FileUpload → Except String String)
    (body : RequestBody) :
    ((config.geminiApiKey = "" ∧ config.groqApiKey = "" ∧ config.anthropicApiKey = "") →
      diagnoseHandler config now adapters body =
        ⟨500, some MISSING_KEYS_ERROR, none, none, none, none⟩)
    ∧ (¬(config.geminiApiKey = "" ∧ config.groqApiKey = "" ∧ config.anthropicApiKey = "") →
      config.fetchIsFunction = false →
      diagnoseHandler config now adapters body =
        ⟨500, some FETCH_NOT_CONFIGURED_ERROR, none, none, none, none⟩) := by
  constructor
  · intro hkeys
    unfold diagnoseHandler
    rw [if_pos hkeys]
  · intro hkeys hfetch
    unfold diagnoseHandler
    rw [if_neg hkeys, hfetch]
    rfl

def bodyInvalid : RequestBody :=
  { symptoms := "x", name := none, age := .absent, language := none,
    readingLevel := none, file := none }

theorem diagnose_checks_precede_validation_witness :
    diagnoseHandler cfgNoKeys "t0" (fun _ _ _ _ => .ok "unused") bodyInvalid =
      ⟨500, some MISSING_KEYS_ERROR, none, none, none, none⟩
    ∧ (validateDiagnosis cfgNoKeys.maxFileBytes bodyInvalid =
      .error ["Please provide symptoms."]) :=
  ⟨(diagnose_checks_precede_validation cfgNoKeys "t0" (fun _ _ _ _ => .ok "unused")
      bodyInvalid).1 ⟨rfl, rfl, rfl⟩,
   by rfl⟩

/-- C9: `createServerConfig` honors the legacy `apiKey` alias: when the
resolved configuration has a non-empty `apiKey` and an empty
`anthropicApiKey`, only `anthropicApiKey` is rewritten, to the `apiKey`
value (enabling the anthropic provider); when `anthropicApiKey` is
already non-empty the legacy value is ignored and the configuration is
returned unchanged. -/
theorem createServerConfig_legacy_alias (env : EnvVars) (o : ConfigOverrides) :
    ((resolvedServerConfig env o).apiKey ≠ "" →
      (resolvedServerConfig env o).anthropicApiKey = "" →
      createServerConfig env o =
        { resolvedServerConfig env o with anthropicApiKey := (resolvedServerConfig env o).apiKey }
      ∧ (createServerConfig env o).anthropicApiKey = (resolvedServerConfig env o).apiKey
      ∧ "anthropic" ∈ enabledNames (createServerConfig env o))
    ∧ ((resolvedServerConfig env o).anthropicApiKey ≠ "" →
      createServerConfig env o = resolvedServerConfig env o) := by
  constructor
  · intro hk hae
    have hc : createServerConfig env o =
        { resolvedServerConfig env o with anthropicApiKey := (resolvedServerConfig env o).apiKey } := by
      simp only [createServerConfig]
      rw [if_pos ⟨hk, hae⟩]
    refine ⟨hc, by rw [hc], ?_⟩
    rw [enabledNames_shape]
    have hne : (createServerConfig env o).anthropicApiKey ≠ "" := by
      rw [hc]
      exact hk
    rw [if_pos hne]
    simp
  · intro hae
    simp only [createServerConfig]
    rw [if_neg (fun hcond => hae hcond.2)]

def envEmpty : EnvVars := {}

def overridesLegacy : ConfigOverrides := { apiKey := some "legacy-key" }

def overridesBoth : ConfigOverrides :=
  { apiKey := some "legacy-key", anthropicApiKey := some "anthropic-key" }

theorem createServerConfig_legacy_alias_witness :
    (createServerConfig envEmpty overridesLegacy).anthropicApiKey = "legacy-key"
    ∧ "anthropic" ∈ enabledNames (createServerConfig envEmpty overridesLegacy)
    ∧ createServerConfig envEmpty overridesBoth = resolvedServerConfig envEmpty overridesBoth := by
  obtain ⟨h1, h2, h3⟩ :=
    (createServerConfig_legacy_alias envEmpty overridesLegacy).1 (by decide) (by decide)
  exact ⟨h2, h3,
    (createServerConfig_legacy_alias envEmpty overridesBoth).2 (by decide)⟩

/-! ### Case-insensitivity of the triage matcher -/

theorem lowerAsciiN_idem (n : Nat) : lowerAsciiN (lowerAsciiN n) = lowerAsciiN n := by
  unfold lowerAsciiN
  split_ifs <;> omega

theorem isWordCharN_lower (n : Nat) : isWordCharN (lowerAsciiN n) = isWordCharN n := by
  unfold isWordCharN lowerAsciiN
  split_ifs
  · simp only [decide_eq_decide]
    omega
  · rfl

theorem isDigitN_lower (n : Nat) : isDigitN (lowerAsciiN n) = isDigitN n := by
  unfold isDigitN lowerAsciiN
  split_ifs
  · simp only [decide_eq_decide]
    omega
  · rfl

theorem matchLit_lower (cs : List Nat) :
    ∀ xs, matchLit cs (xs.map lowerAsciiN) = (matchLit cs xs).map (List.map lowerAsciiN) := by
  induction cs with
  | nil => intro xs; rfl
  | cons c cs ih =>
    intro xs
    cases xs with
    | nil => rfl
    | cons x xs' =>
      simp only [List.map_cons, matchLit, lowerAsciiN_idem]
      by_cases h : lowerAsciiN x = c
      · rw [if_pos h, if_pos h, ih]
      · rw [if_neg h, if_neg h]
        rfl

theorem eatDigits_lower (xs : List Nat) :
    eatDigits (xs.map lowerAsciiN) = (eatDigits xs).map (List.map lowerAsciiN) := by
  have hfun : (isDigitN ∘ lowerAsciiN) = isDigitN := funext isDigitN_lower
  unfold eatDigits
  rw [List.takeWhile_map, List.dropWhile_map, hfun]
  rcases htw : xs.takeWhile isDigitN with _ | ⟨d, ds⟩
  · rfl
  · rfl

theorem matchToks_lower (ts : List RexTok) :
    ∀ xs, matchToks ts (xs.map lowerAsciiN) = (matchToks ts xs).map (List.map lowerAsciiN) := by
  induction ts with
  | nil => intro xs; rfl
  | cons t ts ih =>
    intro xs
    cases t with
    | lit cs =>
      simp only [matchToks, matchLit_lower]
      rcases matchLit cs xs with _ | r
      · rfl
      · exact ih r
    | digits =>
      simp only [matchToks, eatDigits_lower]
      rcases eatDigits xs with _ | r
      · rfl
      · exact ih r

theorem altMatchesHere_lower (alt : List RexTok) (prev : Bool) (xs : List Nat) :
    altMatchesHere alt prev (xs.map lowerAsciiN) = altMatchesHere alt prev xs := by
  unfold altMatchesHere
  rw [matchToks_lower]
  rcases matchToks alt xs with _ | r
  · rfl
  · rcases r with _ | ⟨c, r'⟩
    · rfl
    · simp only [Option.map_some', List.map_cons, isWordCharN_lower]

theorem altScan_lower (alt : List RexTok) :
    ∀ (xs : List Nat) (prev : Bool),
      altScan alt prev (xs.map lowerAsciiN) = altScan alt prev xs := by
  intro xs
  induction xs with
  | nil => intro prev; rfl
  | cons c xs' ih =>
    intro prev
    simp only [List.map_cons, altScan]
    rw [isWordCharN_lower, ih]
    have h1 : altMatchesHere alt prev (lowerAsciiN c :: xs'.map lowerAsciiN) =
        altMatchesHere alt prev (c :: xs') := altMatchesHere_lower alt prev (c :: xs')
    rw [h1]

theorem rexTest_lower (alts : List (List RexTok)) (s₁ s₂ : String)
    (h : (strCodes s₁).map lowerAsciiN = (strCodes s₂).map lowerAsciiN) :
    rexTest alts s₁ = rexTest alts s₂ := by
  unfold rexTest
  have h1 : ∀ alt, altScan alt false (strCodes s₁) = altScan alt false (strCodes s₂) := by
    intro alt
    rw [← altScan_lower alt (strCodes s₁) false, h, altScan_lower alt (strCodes s₂) false]
  rw [funext h1]

theorem detectTriage_caseInsensitive (s₁ s₂ language : String)
    (h : (strCodes s₁).map lowerAsciiN = (strCodes s₂).map lowerAsciiN) :
    detectTriage s₁ language = detectTriage s₂ language := by
  unfold detectTriage
  rw [show (fun p : TriagePattern => rexTest p.alts s₁) = (fun p => rexTest p.alts s₂) from
    funext fun p => rexTest_lower p.alts s₁ s₂ h]

/-- C2: whenever some urgent pattern matches the symptom text (matching is
case-insensitive: any two strings with the same ASCII-lowered code points
classify identically), `detectTriage` reports level `"emergency"` whose
reasons are exactly the reasons of all matching urgent patterns — hence
non-empty, and never drawn from the watch list — regardless of any watch
match. -/
theorem detectTriage_emergency (symptoms language : String)
    (h : ∃ p ∈ URGENT_TRIAGE_PATTERNS, rexTest p.alts symptoms = true) :
    (detectTriage symptoms language).level = "emergency"
    ∧ (detectTriage symptoms language).reasons =
      (URGENT_TRIAGE_PATTERNS.filter (fun p => rexTest p.alts symptoms)).map (·.reason)
    ∧ (detectTriage symptoms language).reasons ≠ []
    ∧ (∀ r ∈ (detectTriage symptoms language).reasons,
        ∃ p ∈ URGENT_TRIAGE_PATTERNS, rexTest p.alts symptoms = true ∧ r = p.reason)
    ∧ (∀ s', (strCodes s').map lowerAsciiN = (strCodes symptoms).map lowerAsciiN →
        detectTriage s' language = detectTriage symptoms language) := by
  obtain ⟨p, hp, hm⟩ := h
  have hfil : p ∈ URGENT_TRIAGE_PATTERNS.filter (fun p => rexTest p.alts symptoms) :=
    List.mem_filter.mpr ⟨hp, hm⟩
  have hlen :
      ((URGENT_TRIAGE_PATTERNS.filter (fun p => rexTest p.alts symptoms)).map
        (·.reason)).length > 0 := by
    rw [List.length_map]
    exact List.length_pos.mpr (List.ne_nil_of_mem hfil)
  have hdet : detectTriage symptoms language =
      ⟨"emergency", ((TRIAGE_COPY_get language).getD TRIAGE_COPY_en).emergencyTitle,
        ((TRIAGE_COPY_get language).getD TRIAGE_COPY_en).emergencyMessage,
        (URGENT_TRIAGE_PATTERNS.filter (fun p => rexTest p.alts symptoms)).map (·.reason)⟩ := by
    simp only [detectTriage]
    rw [if_pos hlen]
  refine ⟨by rw [hdet], by rw [hdet], ?_, ?_, ?_⟩
  · rw [hdet]
    exact List.length_pos.mp hlen
  · intro r hr
    rw [hdet] at hr
    obtain ⟨q, hq, hqr⟩ := List.mem_map.mp hr
    obtain ⟨hq1, hq2⟩ := List.mem_filter.mp hq
    exact ⟨q, hq1, hq2, hqr.symm⟩
  · intro s' hs'
    exact detectTriage_caseInsensitive s' symptoms language hs'

theorem detectTriage_emergency_witness :
    (detectTriage "My child CAN\x27T BREATHE and has chest pain" "en").level = "emergency"
    ∧ (detectTriage "My child CAN\x27T BREATHE and has chest pain" "en").reasons =
      ["Breathing difficulty", "Chest pain"]
    ∧ (detectTriage "My child CAN\x27T BREATHE and has chest pain" "en").reasons ≠ [] := by
  obtain ⟨h1, h2, h3, _, _⟩ :=
    detectTriage_emergency "My child CAN\x27T BREATHE and has chest pain" "en"
      ⟨URGENT_TRIAGE_PATTERNS[0], by decide, by decide⟩
  refine ⟨h1, ?_, h3⟩
  rw [h2]
  rfl

/-- C3: when no urgent pattern matches, a watch match produces level
`"caution"` with exactly the matching watch reasons, and no match of
either list produces level `"routine"` with an empty reasons list. -/
theorem detectTriage_caution_routine (symptoms language : String)
    (h : ∀ p ∈ URGENT_TRIAGE_PATTERNS, rexTest p.alts symptoms = false) :
    ((∃ p ∈ WATCH_TRIAGE_PATTERNS, rexTest p.alts symptoms = true) →
      (detectTriage symptoms language).level = "caution"
      ∧ (detectTriage symptoms language).reasons =
        (WATCH_TRIAGE_PATTERNS.filter (fun p => rexTest p.alts symptoms)).map (·.reason)
      ∧ (detectTriage symptoms language).reasons ≠ [])
    ∧ ((∀ p ∈ WATCH_TRIAGE_PATTERNS, rexTest p.alts symptoms = false) →
      (detectTriage symptoms language).level = "routine"
      ∧ (detectTriage symptoms language).reasons = []) := by
  have hu : URGENT_TRIAGE_PATTERNS.filter (fun p => rexTest p.alts symptoms) = [] :=
    List.filter_eq_nil_iff.mpr (fun p hp => by rw [h p hp]; exact Bool.false_ne_true)
  have hulen : ¬((URGENT_TRIAGE_PATTERNS.filter (fun p => rexTest p.alts symptoms)).map
      (·.reason)).length > 0 := by
    rw [hu]
    simp
  constructor
  · intro hw
    obtain ⟨p, hp, hm⟩ := hw
    have hfil : p ∈ WATCH_TRIAGE_PATTERNS.filter (fun p => rexTest p.alts symptoms) :=
      List.mem_filter.mpr ⟨hp, hm⟩
    have hlen :
        ((WATCH_TRIAGE_PATTERNS.filter (fun p => rexTest p.alts symptoms)).map
          (·.reason)).length > 0 := by
      rw [List.length_map]
      exact List.length_pos.mpr (List.ne_nil_of_mem hfil)
    have hdet : detectTriage symptoms language =
        ⟨"caution", ((TRIAGE_COPY_get language).getD TRIAGE_COPY_en).cautionTitle,
          ((TRIAGE_COPY_get language).getD TRIAGE_COPY_en).cautionMessage,
          (WATCH_TRIAGE_PATTERNS.filter (fun p => rexTest p.alts symptoms)).map (·.reason)⟩ := by
      simp only [detectTriage]
      rw [if_neg hulen, if_pos hlen]
    refine ⟨by rw [hdet], by rw [hdet], ?_⟩
    rw [hdet]
    exact List.length_pos.mp hlen
  · intro hw
    have hwfil : WATCH_TRIAGE_PATTERNS.filter (fun p => rexTest p.alts symptoms) = [] :=
      List.filter_eq_nil_iff.mpr (fun p hp => by rw [hw p hp]; exact Bool.false_ne_true)
    have hwlen : ¬((WATCH_TRIAGE_PATTERNS.filter (fun p => rexTest p.alts symptoms)).map
        (·.reason)).length > 0 := by
      rw [hwfil]
      simp
    have hdet : detectTriage symptoms language =
        ⟨"routine", ((TRIAGE_COPY_get language).getD TRIAGE_COPY_en).routineTitle,
          ((TRIAGE_COPY_get language).getD TRIAGE_COPY_en).routineMessage, []⟩ := by
      simp only [detectTriage]
      rw [if_neg hulen, if_neg hwlen]
    exact ⟨by rw [hdet], by rw [hdet]⟩

theorem detectTriage_caution_routine_witness :
    ((detectTriage "mild headache" "en").level = "caution"
      ∧ (detectTriage "mild headache" "en").reasons = ["Common symptoms to monitor"])
    ∧ ((detectTriage "feeling fine" "en").level = "routine"
      ∧ (detectTriage "feeling fine" "en").reasons = []) := by
  obtain ⟨hc, _⟩ := detectTriage_caution_routine "mild headache" "en" (by decide)
  obtain ⟨h1, h2, _⟩ := hc ⟨WATCH_TRIAGE_PATTERNS[2], by decide, by decide⟩
  obtain ⟨_, hr⟩ := detectTriage_caution_routine "feeling fine" "en" (by decide)
  obtain ⟨h3, h4⟩ := hr (by decide)
  exact ⟨⟨h1, by rw [h2]; rfl⟩, h3, h4⟩

/-- C7: every adapter replaces a response body that failed to parse as
JSON by an empty object (behaving exactly as on `{}`, never raising from
parsing), and on a success transport whose extracted text trims to empty
it fails with that provider's distinct empty-response message. -/
theorem adapter_parse_failure_and_empty_text (p : ProviderTag) (resp : UpstreamResponse) :
    (resp.body = none → adapterOf p resp = adapterOf p ⟨resp.ok, some (Js.obj [])⟩)
    ∧ (resp.ok = true → extractOf p (parseJsonSafe resp.body) = "" →
        adapterOf p resp = .error (emptyResponseMessage p))
    ∧ (∀ q, emptyResponseMessage p = emptyResponseMessage q → p = q) := by
  refine ⟨?_, ?_, ?_⟩
  · intro hb
    rcases resp with ⟨rok, rbody⟩
    simp only at hb
    subst hb
    cases p <;> rfl
  · intro hok hext
    rcases resp with ⟨rok, rbody⟩
    simp only at hok
    subst hok
    cases p
    · have hext' : extractGeminiText (parseJsonSafe rbody) = "" := hext
      simp [adapterOf, requestGeminiDiagnosis, hext', emptyResponseMessage]
    · have hext' : extractGroqText (parseJsonSafe rbody) = "" := hext
      simp [adapterOf, requestGroqDiagnosis, hext', emptyResponseMessage]
    · have hext' : extractAnthropicText (parseJsonSafe rbody) = "" := hext
      simp [adapterOf, requestAnthropicDiagnosis, hext', emptyResponseMessage]
  · intro q
    cases p <;> cases q <;> decide

theorem adapter_parse_failure_and_empty_text_witness :
    adapterOf .gemini ⟨true, none⟩ = .error "Gemini returned an empty response."
    ∧ adapterOf .gemini ⟨true, none⟩ = adapterOf .gemini ⟨true, some (Js.obj [])⟩ :=
  ⟨(adapter_parse_failure_and_empty_text .gemini ⟨true, none⟩).2.1 rfl rfl,
   (adapter_parse_failure_and_empty_text .gemini ⟨true, none⟩).1 rfl⟩

theorem intRange1to18_iff (q : ℚ) :
    intRange1to18 q = true ↔ ∃ n : ℤ, q = (n : ℚ) ∧ 1 ≤ n ∧ n ≤ 18 := by
  unfold intRange1to18
  simp only [decide_eq_true_eq]
  constructor
  · rintro ⟨hden, h1, h18⟩
    exact ⟨q.num, ((Rat.den_eq_one_iff q).mp hden).symm, h1, h18⟩
  · rintro ⟨n, rfl, h1, h18⟩
    refine ⟨Rat.den_intCast n, ?_, ?_⟩
    · rw [Rat.num_intCast]
      exact h1
    · rw [Rat.num_intCast]
      exact h18

/-- C8: a validated request whose age, converted to a string and trimmed,
is non-empty must have an age parsing (via `Number`) to an integer
between 1 and 18; an empty or whitespace-only (or absent) age never
trips the age rule. -/
theorem age_validation_range (mx : Nat) (body : RequestBody) (p : DiagnosisPayload) :
    (validateDiagnosis mx body = .ok p →
      (∀ s, body.age = .str s → jsTrim s ≠ "" →
        ∃ n : ℤ, parseStrNumericLiteral (jsTrim s).data = some (n : ℚ) ∧ 1 ≤ n ∧ n ≤ 18)
      ∧ (∀ oq, body.age = .num oq →
        ∃ q n, oq = some q ∧ q = ((n : ℤ) : ℚ) ∧ 1 ≤ n ∧ n ≤ 18))
    ∧ (∀ s, jsTrim s = "" → ageCheckFails (.str s) = false)
    ∧ ageCheckFails .absent = false := by
  refine ⟨?_, ?_, rfl⟩
  · intro hv
    have hage : ageCheckFails body.age = false := by
      unfold validateDiagnosis at hv
      split at hv
      · split at hv
        · exact absurd hv (by simp)
        · rename_i hcond
          simpa using hcond
      · exact absurd hv (by simp)
    constructor
    · intro s hs hne
      rw [hs] at hage
      have htne : (jsTrimList s.data).isEmpty = false := by
        rcases ht : jsTrimList s.data with _ | ⟨c, cs⟩
        · exact absurd (show jsTrim s = "" from congrArg String.mk ht) hne
        · rfl
      simp only [ageCheckFails] at hage
      rw [htne] at hage
      simp only [Bool.false_eq_true, if_neg, reduceIte] at hage
      rcases hp : parseStrNumericLiteral (jsTrimList s.data) with _ | q
      · rw [hp] at hage
        exact absurd hage (by simp)
      · rw [hp] at hage
        have hq : intRange1to18 q = true := by simpa using hage
        obtain ⟨n, rfl, h1, h18⟩ := (intRange1to18_iff q).mp hq
        exact ⟨n, hp, h1, h18⟩
    · intro oq hoq
      rw [hoq] at hage
      rcases oq with _ | q
      · exact absurd hage (by simp [ageCheckFails])
      · have hage' : (!intRange1to18 q) = false := hage
        have hq : intRange1to18 q = true := by simpa using hage'
        obtain ⟨n, hqn, h1, h18⟩ := (intRange1to18_iff q).mp hq
        exact ⟨q, n, rfl, hqn, h1, h18⟩
  · intro s hs
    have ht : (jsTrimList s.data).isEmpty = true := by
      rw [show jsTrimList s.data = [] from congrArg String.data hs]
      rfl
    simp only [ageCheckFails]
    rw [ht]
    rfl

def bodyAge12 : RequestBody :=
  { symptoms := "headache", name := none, age := .str "12", language := none,
    readingLevel := none, file := none }

def payloadAge12 : DiagnosisPayload :=
  { symptoms := "headache", name := "", age := .str "12", language := "en",
    readingLevel := "simple", file := none }

theorem age_validation_range_witness :
    (∃ n : ℤ, parseStrNumericLiteral (jsTrim "12").data = some (n : ℚ) ∧ 1 ≤ n ∧ n ≤ 18)
    ∧ ageCheckFails (.str "   ") = false := by
  obtain ⟨hstr, _⟩ := (age_validation_range 0 bodyAge12 payloadAge12).1 rfl
  refine ⟨hstr "12" rfl (by decide), ?_⟩
  exact (age_validation_range 0 bodyAge12 payloadAge12).2.1 "   " rfl

/-! ### Substring machinery for the prompt-instruction claim -/

/-- `needle` occurs as a contiguous substring of `hay`. -/
def SubstrOf (needle hay : String) : Prop :=
  needle.data <:+: hay.data

instance (needle hay : String) : Decidable (SubstrOf needle hay) :=
  inferInstanceAs (Decidable (needle.data <:+: hay.data))

/-- The emergency instruction without its final period: the shortest text
whose injection through an interpolation can complete to the full
instruction using the template's own following `"."`. -/
def EMERGENCY_CORE : String :=
  "- Start with a direct warning to seek emergency care immediately"

theorem infix_append_cases {α : Type} {S A B : List α} (h : S <:+: A ++ B) :
    S <:+: A ∨ S <:+: B ∨
      ∃ u v, S = u ++ v ∧ u ≠ [] ∧ v ≠ [] ∧ u <:+ A ∧ v <+: B := by
  obtain ⟨p, s', hps⟩ := h
  rw [List.append_assoc] at hps
  rcases List.append_eq_append_iff.mp hps with ⟨a', ha1, ha2⟩ | ⟨c', hc1, hc2⟩
  · rcases List.append_eq_append_iff.mp ha2 with ⟨x, hx1, hx2⟩ | ⟨y, hy1, hy2⟩
    · left
      exact ⟨p, x, by rw [ha1, hx1, List.append_assoc]⟩
    · rcases eq_or_ne a' [] with rfl | hane
      · right; left
        rw [List.nil_append] at hy1
        exact ⟨[], s', by rw [hy2, ← hy1, List.nil_append]⟩
      · rcases eq_or_ne y [] with rfl | hyne
        · left
          rw [List.append_nil] at hy1
          exact ⟨p, [], by rw [List.append_nil, hy1, ha1]⟩
        · right; right
          exact ⟨a', y, hy1, hane, hyne, ⟨p, ha1.symm⟩, ⟨s', hy2.symm⟩⟩
  · right; left
    exact ⟨c', s', by rw [hc2, List.append_assoc]⟩

theorem prefix_append_cases {α : Type} {v Y W : List α} (h : v <+: Y ++ W) :
    v <+: Y ∨ ∃ w, v = Y ++ w ∧ w <+: W := by
  obtain ⟨t, ht⟩ := h
  rcases List.append_eq_append_iff.mp ht with ⟨x, hx1, hx2⟩ | ⟨y, hy1, hy2⟩
  · left
    exact ⟨x, hx1.symm⟩
  · right
    exact ⟨y, hy1, ⟨t, hy2.symm⟩⟩

set_option maxRecDepth 20000

theorem emergency_core_take : EMERGENCY_INSTRUCTION.data.take 64 = EMERGENCY_CORE.data := by
  decide

theorem emergency_length : EMERGENCY_INSTRUCTION.data.length = 65 := by decide

/-- In a non-emergency prompt the emergency instruction can only appear
through the interpolated `childName`/`childAge`; with its period-free
core excluded from both, it cannot appear at all, whichever of their
possible values the language-name and reading-instruction interpolations
take. -/
theorem emergency_not_infix_nonemergency (name age L R : List Char)
    (hL : L ∈ LANGUAGE_NAME_RESULTS.map String.data)
    (hR : R ∈ READING_INSTRUCTION_RESULTS.map String.data)
    (hname : ¬ EMERGENCY_CORE.data <:+: name)
    (hage : ¬ EMERGENCY_CORE.data <:+: age) :
    ¬ EMERGENCY_INSTRUCTION.data <:+:
      PROMPT_PRE.data ++ (name ++ (PROMPT_WHO.data ++ (age ++
        (PROMPT_RULES_1.data ++ (L ++ (PROMPT_RULES_2.data ++ (R ++
          (PROMPT_RULES_3.data ++ (SOFT_INSTRUCTION.data ++ PROMPT_TAIL.data))))))))) := by
  have dCore : EMERGENCY_CORE.data <:+: EMERGENCY_INSTRUCTION.data := by decide
  have hLlen : L.length < 64 :=
    (by decide : ∀ l ∈ LANGUAGE_NAME_RESULTS.map String.data, l.length < 64) L hL
  intro h
  rcases infix_append_cases h with hX | h1 | ⟨u, v, hSuv, hune, hvne, husuf, hvpre⟩
  · exact absurd hX (by decide)
  case inr.inr.intro.intro.intro.intro.intro.intro =>
    -- straddling the end of the fixed prefix: some non-trivial prefix of the
    -- instruction would have to be a suffix of it, which is false
    have hu : u = EMERGENCY_INSTRUCTION.data.take u.length := by
      rw [hSuv]
      exact (List.take_left u v).symm
    have hk : u.length < 66 := by
      have := congrArg List.length hSuv
      rw [List.length_append, emergency_length] at this
      omega
    have := (by decide :
      ∀ k, k < 66 → k = 0 ∨ ¬(EMERGENCY_INSTRUCTION.data.take k <:+ PROMPT_PRE.data))
      u.length hk
    rcases this with h0 | hcon
    · exact hune (by rwa [h0, List.take_zero] at hu)
    · exact hcon (hu ▸ husuf)
  rcases infix_append_cases h1 with hnm | h2 | ⟨u, v, hSuv, hune, hvne, husuf, hvpre⟩
  · exact hname (dCore.trans hnm)
  case inr.inr.intro.intro.intro.intro.intro.intro =>
    -- straddling the end of childName: the matching tail of the instruction
    -- would have to begin the fixed " who is " segment, which is false
    have hv : v = EMERGENCY_INSTRUCTION.data.drop u.length := by
      rw [hSuv]
      exact (List.drop_left u v).symm
    have hklt : u.length < 65 := by
      have hlen := congrArg List.length hSuv
      rw [List.length_append, emergency_length] at hlen
      have : v.length ≠ 0 := fun h0 => hvne (List.length_eq_zero.mp h0)
      omega
    rcases prefix_append_cases hvpre with hvY | ⟨w, hvw, hwpre⟩
    · exact (by decide :
        ∀ k, k < 65 → ¬(EMERGENCY_INSTRUCTION.data.drop k <+: PROMPT_WHO.data))
        u.length hklt (hv ▸ hvY)
    · have hYinS : PROMPT_WHO.data <:+: EMERGENCY_INSTRUCTION.data := by
        have h1 : PROMPT_WHO.data <+: v := ⟨w, hvw.symm⟩
        rw [hv] at h1
        exact h1.isInfix.trans (List.drop_suffix u.length _).isInfix
      exact absurd hYinS (by decide)
  rcases infix_append_cases h2 with hY | h3 | ⟨u, v, hSuv, hune, hvne, husuf, hvpre⟩
  · exact absurd hY (by decide)
  case inr.inr.intro.intro.intro.intro.intro.intro =>
    -- straddling the end of " who is ": a non-trivial prefix of the
    -- instruction would have to be a suffix of " who is ", which is false
    have hu : u = EMERGENCY_INSTRUCTION.data.take u.length := by
      rw [hSuv]
      exact (List.take_left u v).symm
    have hk : u.length < 66 := by
      have := congrArg List.length hSuv
      rw [List.length_append, emergency_length] at this
      omega
    have := (by decide :
      ∀ k, k < 66 → k = 0 ∨ ¬(EMERGENCY_INSTRUCTION.data.take k <:+ PROMPT_WHO.data))
      u.length hk
    rcases this with h0 | hcon
    · exact hune (by rwa [h0, List.take_zero] at hu)
    · exact hcon (hu ▸ husuf)
  rcases infix_append_cases h3 with hag | hZ | ⟨u, v, hSuv, hune, hvne, husuf, hvpre⟩
  · exact hage (dCore.trans hag)
  case inr.inr.intro.intro.intro.intro.intro.intro =>
    -- straddling the end of childAge: the matching tail of the instruction
    -- must begin the rules block ".\nRules:…", which forces it to be the
    -- final "." alone, so childAge would end with the period-free core
    have hv : v = EMERGENCY_INSTRUCTION.data.drop u.length := by
      rw [hSuv]
      exact (List.drop_left u v).symm
    have hu : u = EMERGENCY_INSTRUCTION.data.take u.length := by
      rw [hSuv]
      exact (List.take_left u v).symm
    have hklt : u.length < 65 := by
      have hlen := congrArg List.length hSuv
      rw [List.length_append, emergency_length] at hlen
      have : v.length ≠ 0 := fun h0 => hvne (List.length_eq_zero.mp h0)
      omega
    rcases prefix_append_cases hvpre with hvR1 | ⟨w, hvw, hwpre⟩
    · have := (by decide :
        ∀ k, k < 65 → (EMERGENCY_INSTRUCTION.data.drop k <+: PROMPT_RULES_1.data) →
          k = 64) u.length hklt (hv ▸ hvR1)
      have hucore : u = EMERGENCY_CORE.data := by
        rw [hu, this, emergency_core_take]
      exact hage (hucore ▸ husuf.isInfix)
    · have hR1inS : PROMPT_RULES_1.data <:+: EMERGENCY_INSTRUCTION.data := by
        have h1 : PROMPT_RULES_1.data <+: v := ⟨w, hvw.symm⟩
        rw [hv] at h1
        exact h1.isInfix.trans (List.drop_suffix u.length _).isInfix
      exact absurd hR1inS (by decide)
  -- S wholly inside the rules block: peel its segments one junction at a time
  rcases infix_append_cases hZ with hR1 | hZ2 | ⟨u, v, hSuv, hune, hvne, husuf, hvpre⟩
  · exact absurd hR1 (by decide)
  case inr.inr.intro.intro.intro.intro.intro.intro =>
    -- straddling the end of ".\nRules:\n- Respond in ": no non-trivial
    -- prefix of the instruction is a suffix of it
    have hu : u = EMERGENCY_INSTRUCTION.data.take u.length := by
      rw [hSuv]
      exact (List.take_left u v).symm
    have hk : u.length < 66 := by
      have := congrArg List.length hSuv
      rw [List.length_append, emergency_length] at this
      omega
    have := (by decide :
      ∀ k, k < 66 → k = 0 ∨ ¬(EMERGENCY_INSTRUCTION.data.take k <:+ PROMPT_RULES_1.data))
      u.length hk
    rcases this with h0 | hcon
    · exact hune (by rwa [h0, List.take_zero] at hu)
    · exact hcon (hu ▸ husuf)
  rcases infix_append_cases hZ2 with hinL | hZ3 | ⟨u, v, hSuv, hune, hvne, husuf, hvpre⟩
  · -- inside the language name: impossible, every candidate is shorter
    have hlen := hinL.length_le
    rw [emergency_length] at hlen
    omega
  case inr.inr.intro.intro.intro.intro.intro.intro =>
    -- straddling the end of the language name: the matching tail must begin
    -- ".\n- ", forcing it to be the final "." alone, so the language name
    -- would end with the 64-character core — too long for every candidate
    have hv : v = EMERGENCY_INSTRUCTION.data.drop u.length := by
      rw [hSuv]
      exact (List.drop_left u v).symm
    have hklt : u.length < 65 := by
      have hlen := congrArg List.length hSuv
      rw [List.length_append, emergency_length] at hlen
      have : v.length ≠ 0 := fun h0 => hvne (List.length_eq_zero.mp h0)
      omega
    rcases prefix_append_cases hvpre with hvR2 | ⟨w, hvw, hwpre⟩
    · have h64 := (by decide :
        ∀ k, k < 65 → (EMERGENCY_INSTRUCTION.data.drop k <+: PROMPT_RULES_2.data) →
          k = 64) u.length hklt (hv ▸ hvR2)
      have := husuf.length_le
      omega
    · have hR2inS : PROMPT_RULES_2.data <:+: EMERGENCY_INSTRUCTION.data := by
        have h1 : PROMPT_RULES_2.data <+: v := ⟨w, hvw.symm⟩
        rw [hv] at h1
        exact h1.isInfix.trans (List.drop_suffix u.length _).isInfix
      exact absurd hR2inS (by decide)
  rcases infix_append_cases hZ3 with hinR2 | hZ4 | ⟨u, v, hSuv, hune, hvne, husuf, hvpre⟩
  · -- inside ".\n- ": impossible, it is four characters long
    have hlen := hinR2.length_le
    rw [emergency_length] at hlen
    have h4 : PROMPT_RULES_2.data.length = 4 := by decide
    omega
  case inr.inr.intro.intro.intro.intro.intro.intro =>
    -- straddling the end of ".\n- ": only the two-character prefix "- " of
    -- the instruction is a suffix of it, and no candidate reading
    -- instruction continues "Start with a direct warning …"
    have hu : u = EMERGENCY_INSTRUCTION.data.take u.length := by
      rw [hSuv]
      exact (List.take_left u v).symm
    have hv : v = EMERGENCY_INSTRUCTION.data.drop u.length := by
      rw [hSuv]
      exact (List.drop_left u v).symm
    have hk : u.length < 66 := by
      have := congrArg List.length hSuv
      rw [List.length_append, emergency_length] at this
      omega
    have h02 := (by decide :
      ∀ k, k < 66 → (EMERGENCY_INSTRUCTION.data.take k <:+ PROMPT_RULES_2.data) →
        k = 0 ∨ k = 2) u.length hk (hu ▸ husuf)
    rcases h02 with h0 | h2
    · exact hune (by rwa [h0, List.take_zero] at hu)
    · rcases prefix_append_cases hvpre with hvR | ⟨w, hvw, hwpre⟩
      · refine (by decide : ∀ r ∈ READING_INSTRUCTION_RESULTS.map String.data,
          ¬(EMERGENCY_INSTRUCTION.data.drop 2 <+: r)) R hR ?_
        rw [← h2, ← hv]
        exact hvR
      · have hRinS : R <:+: EMERGENCY_INSTRUCTION.data := by
          have h1 : R <+: v := ⟨w, hvw.symm⟩
          rw [hv] at h1
          exact h1.isInfix.trans (List.drop_suffix u.length _).isInfix
        exact (by decide : ∀ r ∈ READING_INSTRUCTION_RESULTS.map String.data,
          ¬(r <:+: EMERGENCY_INSTRUCTION.data)) R hR hRinS
  rcases infix_append_cases hZ4 with hinR | hZT | ⟨u, v, hSuv, hune, hvne, husuf, hvpre⟩
  · exact (by decide : ∀ r ∈ READING_INSTRUCTION_RESULTS.map String.data,
      ¬(EMERGENCY_INSTRUCTION.data <:+: r)) R hR hinR
  · exact absurd hZT (by decide)
  case inr.inr.intro.intro.intro.intro.intro.intro =>
    -- straddling the end of the reading instruction: the matching tail of
    -- the instruction would begin the fixed "\n- Use short…" block, but the
    -- instruction contains no newline
    have hv : v = EMERGENCY_INSTRUCTION.data.drop u.length := by
      rw [hSuv]
      exact (List.drop_left u v).symm
    have hklt : u.length < 65 := by
      have hlen := congrArg List.length hSuv
      rw [List.length_append, emergency_length] at hlen
      have : v.length ≠ 0 := fun h0 => hvne (List.length_eq_zero.mp h0)
      omega
    exact (by decide : ∀ k, k < 65 →
      ¬(EMERGENCY_INSTRUCTION.data.drop k <+:
        PROMPT_RULES_3.data ++ (SOFT_INSTRUCTION.data ++ PROMPT_TAIL.data)))
      u.length hklt (hv ▸ hvpre)

theorem buildSystemPrompt_data (childName childAge language readingLevel triageLevel : String) :
    (buildSystemPrompt childName childAge language readingLevel triageLevel).data =
      PROMPT_PRE.data ++ (childName.data ++ (PROMPT_WHO.data ++ (childAge.data ++
        (PROMPT_RULES_1.data ++ ((languageNameOf language).data ++ (PROMPT_RULES_2.data ++
          ((readingInstructionOf readingLevel).data ++ (PROMPT_RULES_3.data ++
            ((emergencyInstructionOf triageLevel).data ++ PROMPT_TAIL.data))))))))) := by
  simp [buildSystemPrompt, String.data_append, List.append_assoc]

theorem languageNameOf_mem (language : String) :
    languageNameOf language ∈ LANGUAGE_NAME_RESULTS := by
  unfold languageNameOf
  rcases h : LANGUAGE_NAMES_get language with _ | t
  · split_ifs with hp
    · exact List.mem_append_right _ (List.mem_map_of_mem _ hp)
    · decide
  · unfold LANGUAGE_NAMES_get at h
    split_ifs at h
    · injection h with h2
      subst h2
      exact (by decide : ("English" : String) ∈ LANGUAGE_NAME_RESULTS)
    · injection h with h2
      subst h2
      exact (by decide : ("Spanish" : String) ∈ LANGUAGE_NAME_RESULTS)
    · injection h with h2
      subst h2
      exact (by decide : ("French" : String) ∈ LANGUAGE_NAME_RESULTS)

theorem readingInstructionOf_mem (readingLevel : String) :
    readingInstructionOf readingLevel ∈ READING_INSTRUCTION_RESULTS := by
  unfold readingInstructionOf
  rcases h : READING_LEVEL_PROMPTS_get readingLevel with _ | t
  · split_ifs with hp
    · exact List.mem_append_right _ (List.mem_map_of_mem _ hp)
    · decide
  · unfold READING_LEVEL_PROMPTS_get at h
    split_ifs at h
    · injection h with h2
      subst h2
      exact (by decide :
        ("Use very short sentences and very simple words for younger children." : String) ∈
          READING_INSTRUCTION_RESULTS)
    · injection h with h2
      subst h2
      exact (by decide :
        ("Use simple child-friendly language with clear examples." : String) ∈
          READING_INSTRUCTION_RESULTS)
    · injection h with h2
      subst h2
      exact (by decide :
        ("Use child-friendly language with slightly more detail for older children." : String) ∈
          READING_INSTRUCTION_RESULTS)

/-- C6 (amended): provided neither `childName` nor `childAge` contains the
emergency instruction's period-free core text, the prompt contains the
direct seek-emergency-care-immediately instruction iff `triageLevel` is
`"emergency"`, and otherwise contains the softer conditional instruction.
The reading-level sentence appearing in the prompt is the lookup-table
entry when `readingLevel` is in the table; for a level found nowhere the
`"simple"` wording is substituted, but for a level naming an inherited
`Object.prototype` property the truthy inherited member's stringification
is interpolated instead.  Likewise the language name is the table entry,
with the English fallback only for codes that are neither table entries
nor inherited property names. -/
theorem buildSystemPrompt_instruction_selection
    (childName childAge language readingLevel triageLevel : String)
    (hn : ¬ SubstrOf EMERGENCY_CORE childName)
    (ha : ¬ SubstrOf EMERGENCY_CORE childAge) :
    (SubstrOf EMERGENCY_INSTRUCTION
        (buildSystemPrompt childName childAge language readingLevel triageLevel) ↔
      triageLevel = "emergency")
    ∧ (triageLevel ≠ "emergency" →
      SubstrOf SOFT_INSTRUCTION
        (buildSystemPrompt childName childAge language readingLevel triageLevel))
    ∧ SubstrOf (readingInstructionOf readingLevel)
        (buildSystemPrompt childName childAge language readingLevel triageLevel)
    ∧ (∀ t, READING_LEVEL_PROMPTS_get readingLevel = some t →
      readingInstructionOf readingLevel = t)
    ∧ (READING_LEVEL_PROMPTS_get readingLevel = none →
      readingLevel ∉ OBJECT_PROTOTYPE_KEYS →
      readingInstructionOf readingLevel =
        "Use simple child-friendly language with clear examples.")
    ∧ (READING_LEVEL_PROMPTS_get readingLevel = none →
      readingLevel ∈ OBJECT_PROTOTYPE_KEYS →
      readingInstructionOf readingLevel = objectPrototypeMemberString readingLevel)
    ∧ SubstrOf ("- Respond in " ++ languageNameOf language ++ ".")
        (buildSystemPrompt childName childAge language readingLevel triageLevel)
    ∧ (∀ t, LANGUAGE_NAMES_get language = some t → languageNameOf language = t)
    ∧ (LANGUAGE_NAMES_get language = none → language ∉ OBJECT_PROTOTYPE_KEYS →
      languageNameOf language = "English")
    ∧ (LANGUAGE_NAMES_get language = none → language ∈ OBJECT_PROTOTYPE_KEYS →
      languageNameOf language = objectPrototypeMemberString language) := by
  refine ⟨⟨?_, ?_⟩, ?_, ?_, ?_, ?_, ?_, ?_, ?_, ?_, ?_⟩
  · -- containment forces the emergency level
    intro hsub
    by_contra hne
    have hsoft : emergencyInstructionOf triageLevel = SOFT_INSTRUCTION := by
      unfold emergencyInstructionOf
      rw [if_neg hne]
    unfold SubstrOf at hsub
    rw [buildSystemPrompt_data, hsoft] at hsub
    exact emergency_not_infix_nonemergency childName.data childAge.data
      (languageNameOf language).data (readingInstructionOf readingLevel).data
      (List.mem_map_of_mem _ (languageNameOf_mem language))
      (List.mem_map_of_mem _ (readingInstructionOf_mem readingLevel))
      hn ha hsub
  · -- the emergency level injects the instruction
    intro hemg
    have hinstr : emergencyInstructionOf triageLevel = EMERGENCY_INSTRUCTION := by
      unfold emergencyInstructionOf
      rw [if_pos hemg]
    unfold SubstrOf
    rw [buildSystemPrompt_data, hinstr]
    refine ⟨PROMPT_PRE.data ++ childName.data ++ PROMPT_WHO.data ++ childAge.data ++
      PROMPT_RULES_1.data ++ (languageNameOf language).data ++ PROMPT_RULES_2.data ++
      (readingInstructionOf readingLevel).data ++ PROMPT_RULES_3.data, PROMPT_TAIL.data, ?_⟩
    simp [List.append_assoc]
  · intro hne
    have hsoft : emergencyInstructionOf triageLevel = SOFT_INSTRUCTION := by
      unfold emergencyInstructionOf
      rw [if_neg hne]
    unfold SubstrOf
    rw [buildSystemPrompt_data, hsoft]
    refine ⟨PROMPT_PRE.data ++ childName.data ++ PROMPT_WHO.data ++ childAge.data ++
      PROMPT_RULES_1.data ++ (languageNameOf language).data ++ PROMPT_RULES_2.data ++
      (readingInstructionOf readingLevel).data ++ PROMPT_RULES_3.data, PROMPT_TAIL.data, ?_⟩
    simp [List.append_assoc]
  · unfold SubstrOf
    rw [buildSystemPrompt_data]
    refine ⟨PROMPT_PRE.data ++ childName.data ++ PROMPT_WHO.data ++ childAge.data ++
      PROMPT_RULES_1.data ++ (languageNameOf language).data ++ PROMPT_RULES_2.data,
      PROMPT_RULES_3.data ++ ((emergencyInstructionOf triageLevel).data ++ PROMPT_TAIL.data), ?_⟩
    simp [List.append_assoc]
  · intro t ht
    simp only [readingInstructionOf, ht]
  · intro hnone hnp
    simp only [readingInstructionOf, hnone]
    rw [if_neg hnp]
  · intro hnone hp
    simp only [readingInstructionOf, hnone]
    rw [if_pos hp]
  · unfold SubstrOf
    rw [buildSystemPrompt_data]
    have hsplit1 : PROMPT_RULES_1.data = ".\nRules:\n".data ++ "- Respond in ".data := rfl
    have hsplit2 : PROMPT_RULES_2.data = ".".data ++ "\n- ".data := rfl
    rw [hsplit1, hsplit2]
    refine ⟨PROMPT_PRE.data ++ childName.data ++ PROMPT_WHO.data ++ childAge.data ++
      ".\nRules:\n".data,
      "\n- ".data ++ ((readingInstructionOf readingLevel).data ++ (PROMPT_RULES_3.data ++
        ((emergencyInstructionOf triageLevel).data ++ PROMPT_TAIL.data))), ?_⟩
    simp [String.data_append, List.append_assoc]
  · intro t ht
    simp only [languageNameOf, ht]
  · intro hnone hnp
    simp only [languageNameOf, hnone]
    rw [if_neg hnp]
  · intro hnone hp
    simp only [languageNameOf, hnone]
    rw [if_pos hp]

/-- C6 counterexample: as literally stated — over every input — the claim
fails twice: a `childName` equal to the emergency instruction makes a
routine-level prompt contain it, and for `language = "constructor"` (a
property inherited from `Object.prototype`) the lookup finds a truthy
inherited member, so the interpolated name is that member's
stringification, not the English fallback the claim asserts (likewise for
such a `readingLevel`). -/
theorem buildSystemPrompt_contains_emergency_without_emergency :
    (SubstrOf EMERGENCY_INSTRUCTION
        (buildSystemPrompt EMERGENCY_INSTRUCTION "a young child" "en" "simple" "routine")
      ∧ ("routine" : String) ≠ "emergency")
    ∧ (LANGUAGE_NAMES_get "constructor" = none
      ∧ languageNameOf "constructor" = "function Object() { [native code] }"
      ∧ languageNameOf "constructor" ≠ "English"
      ∧ READING_LEVEL_PROMPTS_get "constructor" = none
      ∧ readingInstructionOf "constructor" ≠
          "Use simple child-friendly language with clear examples.") := by
  refine ⟨⟨?_, by decide⟩, by decide, by decide, by decide, by decide, by decide⟩
  unfold SubstrOf
  rw [buildSystemPrompt_data]
  refine ⟨PROMPT_PRE.data,
    PROMPT_WHO.data ++ ("a young child".data ++
      (PROMPT_RULES_1.data ++ ((languageNameOf "en").data ++ (PROMPT_RULES_2.data ++
        ((readingInstructionOf "simple").data ++ (PROMPT_RULES_3.data ++
          ((emergencyInstructionOf "routine").data ++ PROMPT_TAIL.data))))))), ?_⟩
  simp [List.append_assoc]

theorem buildSystemPrompt_instruction_selection_witness :
    SubstrOf EMERGENCY_INSTRUCTION
      (buildSystemPrompt "little friend" "a young child" "en" "simple" "emergency")
    ∧ ¬ SubstrOf EMERGENCY_INSTRUCTION
      (buildSystemPrompt "little friend" "a young child" "de" "other" "routine")
    ∧ SubstrOf "Use simple child-friendly language with clear examples."
      (buildSystemPrompt "little friend" "a young child" "de" "other" "routine")
    ∧ SubstrOf "- Respond in English."
      (buildSystemPrompt "little friend" "a young child" "de" "other" "routine")
    ∧ languageNameOf "toString" = "function toString() { [native code] }" := by
  obtain ⟨hiff1, _, _, _, _, _, _, _, _, _⟩ :=
    buildSystemPrompt_instruction_selection "little friend" "a young child" "en" "simple"
      "emergency" (by decide) (by decide)
  obtain ⟨hiff2, _, hread, _, hrnone, _, hlang, _, hlnone, _⟩ :=
    buildSystemPrompt_instruction_selection "little friend" "a young child" "de" "other"
      "routine" (by decide) (by decide)
  obtain ⟨_, _, _, _, _, _, _, _, _, hproto⟩ :=
    buildSystemPrompt_instruction_selection "little friend" "a young child" "toString"
      "simple" "routine" (by decide) (by decide)
  refine ⟨hiff1.mpr rfl, fun hc => ?_, ?_, ?_, ?_⟩
  · exact absurd (hiff2.mp hc) (by decide)
  · exact (hrnone rfl (by decide)) ▸ hread
  · have h3 : ("- Respond in " ++ languageNameOf "de" ++ "." : String) =
        "- Respond in English." := by rw [hlnone rfl (by decide)]; rfl
    exact h3 ▸ hlang
  · exact hproto rfl (by decide)
